import Mathlib

/-!
# Bitfinex feed client: channel table, dispatcher and decoders

A shallow embedding of `src/exchanges/bitfinex-client.js`.

The file has three layers.

* `Number`: JavaScript Numbers as IEEE-754 doubles (sign, integer mantissa, binary
  exponent), with the operations the client applies to them: `+`, `*`, `>`,
  `Math.abs`, `Number.prototype.toFixed`, Number-to-String and String-to-Number.
* `Val`: the values `JSON.parse` can hand to the client (plus `undefined`), with
  the dynamic operations of the language the client relies on: property reads,
  array destructuring, iteration, `===`, truthiness and the implicit coercions.
  A thrown `TypeError` is the `Except.error` result.
* the client itself: `_findChannel`, `_onMessage`, the six decoders and the
  outbound requests `_sendSub...` / `_sendUnsub...`, each written statement for
  statement after the source.

Scope of the embedding.  A frame is the value returned by `JSON.parse`; a
`SyntaxError` of the parser, the listeners called by `emit`, `console.log` and
the stack limit of the engine (a `RangeError` on a frame nested thousands of
levels deep) are outside.  Strings are sequences of characters of the Basic
Multilingual Plane, so that one character is one UTF-16 code unit.
`this._channels` is an ordinary object: the state holds its own properties and
its prototype, which the assignment `this._channels[msg.chanId] = msg` replaces
when the key is `__proto__`, and a read goes through both.
-/

namespace Bitfinex

/-! ## Numbers -/

/-- A JavaScript Number: `NaN`, an infinity, or the finite value
`(-1)^neg * m * 2^e`.  The value computed by every operation below is in the
IEEE normal form `m < 2^53`, with `2^52 ≤ m` or `e = -1074`, zero being
`fin neg 0 0`. -/
inductive Number where
  | nan
  | inf (neg : Bool)
  | fin (neg : Bool) (m : Nat) (e : Int)
  deriving DecidableEq

/-- Loop of `bitLen`. -/
def bitLenAux : Nat → Nat → Nat
  | 0, _ => 0
  | fuel + 1, n => if n = 0 then 0 else bitLenAux fuel (n / 2) + 1

/-- Number of binary digits of `n` (0 for 0). -/
def bitLen (n : Nat) : Nat := bitLenAux n n

/-- The value `m * 2^e` as a fraction of naturals `(a, b)`, `b > 0`. -/
def frac (m : Nat) (e : Int) : Nat × Nat :=
  if 0 ≤ e then (m * 2 ^ e.toNat, 1) else (m, 2 ^ (-e).toNat)

/-- Round the rational `(-1)^neg * a / b` to the nearest double, ties to even
(the rounding of every IEEE operation and of numeric literals). -/
def roundRat (neg : Bool) (a b : Nat) : Number :=
  if a = 0 ∨ b = 0 then .fin neg 0 0
  else
    let e0 : Int := (bitLen a : Int) - (bitLen b : Int)
    let ge : Bool := if 0 ≤ e0 then decide (b * 2 ^ e0.toNat ≤ a) else decide (b ≤ a * 2 ^ (-e0).toNat)
    let ex : Int := if ge then e0 else e0 - 1
    let p : Int := max (ex - 52) (-1074)
    let num : Nat := if 0 ≤ p then a else a * 2 ^ (-p).toNat
    let den : Nat := if 0 ≤ p then b * 2 ^ p.toNat else b
    let q := num / den
    let r := num % den
    let m := if 2 * r < den then q else if den < 2 * r then q + 1 else if q % 2 = 0 then q else q + 1
    let m1 := if m = 2 ^ 53 then 2 ^ 52 else m
    let p1 := if m = 2 ^ 53 then p + 1 else p
    if 971 < p1 then .inf neg else if m1 = 0 then .fin neg 0 0 else .fin neg m1 p1

namespace Number

/-- The Number of a natural. -/
def ofNat (n : Nat) : Number := roundRat false n 1

/-- The Number of an integer. -/
def ofInt (i : Int) : Number := roundRat (decide (i < 0)) i.natAbs 1

/-- The Number denoted by the decimal literal `(-1)^neg * digits * 10^exp`,
as `JSON.parse` reads it. -/
def ofDecimal (neg : Bool) (digits : Nat) (exp : Int) : Number :=
  if 0 ≤ exp then roundRat neg (digits * 10 ^ exp.toNat) 1
  else roundRat neg digits (10 ^ (-exp).toNat)

/-- The test `x > 0`. -/
def isPos : Number → Bool
  | nan => false
  | inf neg => !neg
  | fin neg m _ => !neg && m != 0

/-- The test `x < 0`. -/
def isNeg : Number → Bool
  | nan => false
  | inf neg => neg
  | fin neg m _ => neg && m != 0

/-- The test `x === 0` (true of both zeros). -/
def isZero : Number → Bool
  | fin _ 0 _ => true
  | _ => false

/-- The function `Math.abs` on a Number. -/
def abs : Number → Number
  | nan => nan
  | inf _ => inf false
  | fin _ m e => fin false m e

/-- Equality of Numbers as `===` sees it: `NaN` differs from itself, the two
zeros are equal, finite values are compared by value. -/
def eq : Number → Number → Bool
  | inf a, inf b => a == b
  | fin s m e, fin t n f =>
    if m = 0 ∨ n = 0 then m == n
    else s == t && (frac m e).1 * (frac n f).2 == (frac n f).1 * (frac m e).2
  | _, _ => false

/-- The operator `+` on two Numbers. -/
def add : Number → Number → Number
  | nan, _ => nan
  | _, nan => nan
  | inf a, inf b => if a = b then inf a else nan
  | inf a, fin _ _ _ => inf a
  | fin _ _ _, inf b => inf b
  | fin s m e, fin t n f =>
    let c := min e f
    let i : Int := (if s then -1 else 1) * (m * 2 ^ (e - c).toNat : Nat)
    let j : Int := (if t then -1 else 1) * (n * 2 ^ (f - c).toNat : Nat)
    let k := i + j
    if k = 0 then fin (s && t) 0 0
    else roundRat (decide (k < 0)) (frac k.natAbs c).1 (frac k.natAbs c).2

/-- The operator `*` on two Numbers. -/
def mul : Number → Number → Number
  | nan, _ => nan
  | _, nan => nan
  | inf a, inf b => inf (a != b)
  | inf a, fin t n _ => if n = 0 then nan else inf (a != t)
  | fin s m _, inf b => if m = 0 then nan else inf (s != b)
  | fin s m e, fin t n f => roundRat (s != t) (frac (m * n) (e + f)).1 (frac (m * n) (e + f)).2

/-- Loop of `pow10Pos`: the least `j` with `b ≤ a * 10^(j+1)`. -/
def leadingZeros (a b : Nat) : Nat → Nat → Nat
  | 0, j => j
  | fuel + 1, j => if b ≤ a * 10 ^ (j + 1) then j else leadingZeros a b fuel (j + 1)

/-- The integer `n` with `10^(n-1) ≤ a/b < 10^n`, for `a/b > 0`. -/
def pow10Pos (a b : Nat) : Int :=
  if b ≤ a then ((Nat.toDigits 10 (a / b)).length : Int)
  else -((leadingZeros a b (bitLen b) 0 : Nat) : Int)

/-- The candidates with `k` digits for the shortest decimal that reads back as
`(a / b)`: the digit string `s` and the decimal position `n` of the value
`s * 10^(n-k)`, if one of the two `k`-digit neighbours of `a / b` rounds to it. -/
def shortestAt (a b : Nat) (n : Int) (k : Nat) : Option (Nat × Int) :=
  let x := roundRat false a b
  let sh : Int := (k : Int) - n
  let num := if 0 ≤ sh then a * 10 ^ sh.toNat else a
  let den := if 0 ≤ sh then b else b * 10 ^ (-sh).toNat
  let lo := num / den
  let hi := lo + 1
  let back (s : Nat) : Bool :=
    if 0 ≤ sh then decide (roundRat false s (10 ^ sh.toNat) = x)
    else decide (roundRat false (s * 10 ^ (-sh).toNat) 1 = x)
  let r := num % den
  let okLo := back lo && decide (10 ^ (k - 1) ≤ lo)
  let okHi := back hi
  let pickHi : Bool := okHi && (!okLo || decide (den < 2 * r) || (decide (2 * r = den) && decide (hi % 2 = 0)))
  if pickHi then (if hi = 10 ^ k then some (10 ^ (k - 1), n + 1) else some (hi, n))
  else if okLo then some (lo, n)
  else none

/-- Loop of `shortest`: the first `k` from `k` upwards with a candidate. -/
def shortestFrom (a b : Nat) (n : Int) : Nat → Nat → Nat × Int × Nat
  | 0, k => (a * 10 ^ ((k : Int) - n).toNat / (b * 10 ^ (n - (k : Int)).toNat), n, k)
  | fuel + 1, k =>
    match shortestAt a b n k with
    | some (s, n1) => (s, n1, k)
    | none => shortestFrom a b n fuel (k + 1)

/-- The triple `(s, n, k)` of Number-to-String: the fewest digits `k` and the
`k`-digit integer `s` such that `s * 10^(n-k)` reads back as the double. -/
def shortest (a b : Nat) : Nat × Int × Nat :=
  shortestFrom a b (pow10Pos a b) 17 1

/-- The characters of Number-to-String for a positive finite value `a / b`. -/
def posToChars (a b : Nat) : List Char :=
  let t := shortest a b
  let ds := Nat.toDigits 10 t.1
  let n := t.2.1
  let k := ds.length
  if (k : Int) ≤ n ∧ n ≤ 21 then ds ++ List.replicate (n.toNat - k) '0'
  else if 0 < n ∧ n ≤ 21 then ds.take n.toNat ++ '.' :: ds.drop n.toNat
  else if -6 < n ∧ n ≤ 0 then '0' :: '.' :: (List.replicate (-n).toNat '0' ++ ds)
  else
    let ex := n - 1
    let sign := if 0 ≤ ex then '+' else '-'
    let exd := Nat.toDigits 10 ex.natAbs
    if k = 1 then ds ++ 'e' :: sign :: exd
    else ds.take 1 ++ '.' :: (ds.drop 1 ++ 'e' :: sign :: exd)

/-- The string of a Number (`Number::toString`, radix 10). -/
def toString : Number → String
  | nan => "NaN"
  | inf neg => if neg then "-Infinity" else "Infinity"
  | fin neg m e =>
    if m = 0 then "0"
    else String.mk ((if neg then ['-'] else []) ++ posToChars (frac m e).1 (frac m e).2)

/-- The method `Number.prototype.toFixed` with `f` fraction digits
(`0 ≤ f ≤ 100`): the nearest multiple of `10^-f`, the larger one on a tie;
values of magnitude `10^21` or more are printed by Number-to-String. -/
def toFixed (x : Number) (f : Nat) : String :=
  match x with
  | nan => toString x
  | inf _ => toString x
  | fin neg m e =>
    let a := (frac m e).1
    let b := (frac m e).2
    let s : List Char := if neg && m != 0 then ['-'] else []
    if 10 ^ 21 * b ≤ a then String.mk (s ++ posToChars a b)
    else
      let n := (2 * a * 10 ^ f + b) / (2 * b)
      let ds := Nat.toDigits 10 n
      if f = 0 then String.mk (s ++ ds)
      else
        let pad := List.replicate (f + 1 - ds.length) '0' ++ ds
        String.mk (s ++ pad.take (pad.length - f) ++ '.' :: pad.drop (pad.length - f))

end Number

/-! ## String to Number -/

/-- The characters `StrWhiteSpaceChar` of the grammar of numeric strings
(white space and line terminators). -/
def isStrWhiteSpace (c : Char) : Bool :=
  let n := c.toNat
  decide (n = 9 ∨ n = 10 ∨ n = 11 ∨ n = 12 ∨ n = 13 ∨ n = 32 ∨ n = 160 ∨ n = 5760 ∨
    (8192 ≤ n ∧ n ≤ 8202) ∨ n = 8232 ∨ n = 8233 ∨ n = 8239 ∨ n = 8287 ∨ n = 12288 ∨ n = 65279)

/-- The value of a digit character in a radix up to 16, if it is one. -/
def digitVal (radix : Nat) (c : Char) : Option Nat :=
  let n := c.toNat
  let v := if 48 ≤ n ∧ n ≤ 57 then n - 48
    else if 97 ≤ n ∧ n ≤ 102 then n - 87
    else if 65 ≤ n ∧ n ≤ 70 then n - 55
    else 16
  if v < radix then some v else none

/-- The value of a non-empty string of digits in the radix; `none` if the
string is empty or holds another character. -/
def digitsVal (radix : Nat) (cs : List Char) : Option Nat :=
  if cs = [] then none
  else cs.foldl (fun acc c => acc.bind (fun a => (digitVal radix c).map (fun v => a * radix + v))) (some 0)

/-- The exponent part of a decimal literal: empty, or `e`/`E`, an optional sign
and digits. -/
def exponentVal (cs : List Char) : Option Int :=
  match cs with
  | [] => some 0
  | c :: r =>
    if c = 'e' ∨ c = 'E' then
      match r with
      | '+' :: ds => (digitsVal 10 ds).map (fun v => (v : Int))
      | '-' :: ds => (digitsVal 10 ds).map (fun v => -(v : Int))
      | ds => (digitsVal 10 ds).map (fun v => (v : Int))
    else none

/-- The production `StrUnsignedDecimalLiteral` without `Infinity`: digits with
an optional fraction and exponent, at least one digit in the mantissa. -/
def unsignedDecimal (neg : Bool) (cs : List Char) : Option Number :=
  let ip := cs.takeWhile Char.isDigit
  let r1 := cs.dropWhile Char.isDigit
  let fp := match r1 with
    | '.' :: r => r.takeWhile Char.isDigit
    | _ => []
  let r2 := match r1 with
    | '.' :: r => r.dropWhile Char.isDigit
    | _ => r1
  if ip = [] ∧ fp = [] then none
  else
    match digitsVal 10 ('0' :: (ip ++ fp)), exponentVal r2 with
    | some d, some ex => some (Number.ofDecimal neg d (ex - (fp.length : Int)))
    | _, _ => none

/-- The production `StrNumericLiteral` on the trimmed string. -/
def strNumericLiteral (cs : List Char) : Option Number :=
  match cs with
  | [] => some (.fin false 0 0)
  | '0' :: 'x' :: r => (digitsVal 16 r).map Number.ofNat
  | '0' :: 'X' :: r => (digitsVal 16 r).map Number.ofNat
  | '0' :: 'o' :: r => (digitsVal 8 r).map Number.ofNat
  | '0' :: 'O' :: r => (digitsVal 8 r).map Number.ofNat
  | '0' :: 'b' :: r => (digitsVal 2 r).map Number.ofNat
  | '0' :: 'B' :: r => (digitsVal 2 r).map Number.ofNat
  | '+' :: r => if r = "Infinity".toList then some (.inf false) else unsignedDecimal false r
  | '-' :: r => if r = "Infinity".toList then some (.inf true) else unsignedDecimal true r
  | r => if r = "Infinity".toList then some (.inf false) else unsignedDecimal false r

/-- The abstract operation `StringToNumber`: `NaN` when the string is not a
numeric literal between optional white space. -/
def stringToNumber (s : String) : Number :=
  let cs := (s.toList.dropWhile isStrWhiteSpace).reverse.dropWhile isStrWhiteSpace
  (strNumericLiteral cs.reverse).getD .nan

/-! ## Values -/

/-- A JavaScript value as `JSON.parse` builds it, together with `undefined`
(the value of a missing property or element). An object is the list of its own
properties. -/
inductive Val where
  | undefined
  | null
  | bool (b : Bool)
  | num (n : Number)
  | str (s : String)
  | arr (xs : List Val)
  | obj (kvs : List (String × Val))

/-- The exception the client throws on a decoded frame: a `TypeError`. -/
inductive Err where
  | typeError
  deriving DecidableEq

namespace Val

/-- The own property `k` of an object given by its property list. -/
def ownProp (kvs : List (String × Val)) (k : String) : Val :=
  match kvs.lookup k with
  | some v => v
  | none => undefined

/-- The read `v.k` of a property named `k`, for the names the client reads
(`event`, `chanId`, `channel`, `pair`, `prec`): none of them is defined by a
built-in prototype, so only an object can have one. Reading a property of
`undefined` or `null` throws. -/
def getField (v : Val) (k : String) : Except Err Val :=
  match v with
  | undefined => .error .typeError
  | null => .error .typeError
  | obj kvs => .ok (ownProp kvs k)
  | _ => .ok undefined

/-- The read `v[i]` of an integer-indexed property: an element of an array, a
character of a string, the property named by the digits of `i` of an object. -/
def getIndex (v : Val) (i : Nat) : Except Err Val :=
  match v with
  | undefined => .error .typeError
  | null => .error .typeError
  | arr xs => .ok (xs.getD i undefined)
  | str s => .ok (match s.toList.get? i with
      | some c => str (String.singleton c)
      | none => undefined)
  | obj kvs => .ok (ownProp kvs (Nat.repr i))
  | _ => .ok undefined

/-- The values produced by iterating `v` (`for ... of`, array destructuring):
only arrays and strings are iterable. -/
def iterate (v : Val) : Except Err (List Val) :=
  match v with
  | arr xs => .ok xs
  | str s => .ok (s.toList.map (fun c => str (String.singleton c)))
  | _ => .error .typeError

/-- The `i`-th variable of an array-destructuring pattern bound to the
iteration `xs`: `undefined` past the end. -/
def nth (xs : List Val) (i : Nat) : Val := xs.getD i undefined

/-- The function `Array.isArray`. -/
def isArray : Val → Bool
  | arr _ => true
  | _ => false

/-- The abstract operation `ToBoolean` (the test of `if` and `!`). -/
def truthy : Val → Bool
  | undefined => false
  | null => false
  | bool b => b
  | num n => !(n.isZero || n == Number.nan)
  | str s => s != ""
  | arr _ => true
  | obj _ => true

/-- The operator `===`. Two arrays or objects are equal only when they are the
same object; the operands compared by the client come from different sources
(a decoded frame, a literal, an argument), so they never are. -/
def strictEq : Val → Val → Bool
  | undefined, undefined => true
  | null, null => true
  | bool a, bool b => a == b
  | num a, num b => Number.eq a b
  | str a, str b => a == b
  | _, _ => false

mutual
/-- The abstract operation `ToString`. An array is joined with commas
(`Array.prototype.toString`); an object prints as `[object Object]` through
`Object.prototype.toString`, unless it has an own property `toString`, which
is not callable, and then the conversion to a primitive throws. -/
def toStr : Val → Except Err String
  | undefined => .ok "undefined"
  | null => .ok "null"
  | bool b => .ok (if b then "true" else "false")
  | num n => .ok n.toString
  | str s => .ok s
  | arr xs => joinStr xs
  | obj kvs => if (kvs.lookup "toString").isSome then .error .typeError else .ok "[object Object]"
/-- The method `Array.prototype.join` with a comma: `undefined` and `null`
elements print as the empty string. -/
def joinStr : List Val → Except Err String
  | [] => .ok ""
  | [x] => elemStr x
  | x :: y :: r =>
    match elemStr x, joinStr (y :: r) with
    | .ok a, .ok b => .ok (a ++ "," ++ b)
    | .error e, _ => .error e
    | _, .error e => .error e
/-- The string of one element inside `join`. -/
def elemStr : Val → Except Err String
  | undefined => .ok ""
  | null => .ok ""
  | bool b => toStr (bool b)
  | num n => toStr (num n)
  | str s => toStr (str s)
  | arr xs => toStr (arr xs)
  | obj kvs => toStr (obj kvs)
end

/-- The abstract operation `ToPropertyKey`: the name under which `obj[v]` reads
or writes. -/
def toPropertyKey (v : Val) : Except Err String := toStr v

/-- The abstract operation `ToPrimitive`: arrays and objects become their
string, every other value is itself. -/
def toPrimitive (v : Val) : Except Err Val :=
  match v with
  | arr xs => (toStr (arr xs)).map str
  | obj kvs => (toStr (obj kvs)).map str
  | p => .ok p

/-- The abstract operation `ToNumber`. -/
def toNumber (v : Val) : Except Err Number :=
  match v with
  | undefined => .ok .nan
  | null => .ok (.fin false 0 0)
  | bool b => .ok (if b then Number.ofNat 1 else .fin false 0 0)
  | num n => .ok n
  | str s => .ok (stringToNumber s)
  | arr xs => (toStr (arr xs)).map stringToNumber
  | obj kvs => (toStr (obj kvs)).map stringToNumber

/-- The expression `a + b`: concatenation when a primitive operand is a
string, addition of Numbers otherwise. -/
def plus (a b : Val) : Except Err Val := do
  let pa ← toPrimitive a
  let pb ← toPrimitive b
  match pa, pb with
  | str s, _ => return str (s ++ (← toStr pb))
  | _, str t => return str ((← toStr pa) ++ t)
  | _, _ => return num (Number.add (← toNumber pa) (← toNumber pb))

/-- The expression `a * b`. -/
def times (a b : Val) : Except Err Val := do
  let x ← toNumber a
  let y ← toNumber b
  return num (Number.mul x y)

/-- The expression `+a`. -/
def unaryPlus (a : Val) : Except Err Number := toNumber a

/-- The expression `a > 0`. -/
def gtZero (a : Val) : Except Err Bool := (toNumber a).map Number.isPos

/-- The expression `Math.abs(a)`. -/
def mathAbs (a : Val) : Except Err Number := (toNumber a).map Number.abs

/-- The truth value of the property read `v.toFixed`: the built-in method on a
Number, an own property on an object, `undefined` on any other value; the read
throws on `undefined` and `null`. -/
def hasToFixed (v : Val) : Except Err Bool :=
  match v with
  | undefined => .error .typeError
  | null => .error .typeError
  | num _ => .ok true
  | obj kvs => .ok (truthy (ownProp kvs "toFixed"))
  | _ => .ok false

/-- The call `v.toFixed(f)`: the rendering of a Number; on any other value the
property is missing or not callable, and the call throws. A call without
argument is `f = 0`. -/
def toFixed (v : Val) (f : Nat) : Except Err String :=
  match v with
  | num n => .ok (n.toFixed f)
  | _ => .error .typeError

end Val

/-! ## Canonical events -/

/-- Modelled from the spec: the subscription context of a trading pair, the
market object kept by the subscription maps of `BasicClient`
(`src/basic-client.js`, not in this unit). -/
structure Market where
  base : String
  quote : String
  deriving DecidableEq

/-- Modelled from the spec: the class `Ticker` (`src/ticker.js`), a record of
the properties it is constructed from. `timestamp` is `Date.now()`; `open_` is
the property `open`. -/
structure Ticker where
  exchange : String
  base : String
  quote : String
  timestamp : Nat
  last : String
  open_ : String
  high : String
  low : String
  volume : String
  change : String
  changePercent : String
  bid : String
  bidVolume : String
  ask : String
  askVolume : String
  deriving DecidableEq

/-- Modelled from the spec: the class `Trade` (`src/trade.js`), a record of the
properties it is constructed from. -/
structure Trade where
  exchange : String
  base : String
  quote : String
  tradeId : String
  unix : Val
  side : String
  price : String
  amount : String

/-- Modelled from the spec: the class `Level2Point` (`src/level2-point.js`),
which stores its three constructor arguments. -/
structure Level2Point where
  price : String
  size : String
  count : String
  deriving DecidableEq

/-- Modelled from the spec: the class `Level2Snapshot`
(`src/level2-snapshot.js`), a record of the properties it is constructed
from. -/
structure Level2Snapshot where
  exchange : String
  base : String
  quote : String
  sequenceId : Number
  asks : List Level2Point
  bids : List Level2Point
  deriving DecidableEq

/-- Modelled from the spec: the class `Level2Update` (`src/level2-update.js`),
a record of the properties it is constructed from. -/
structure Level2Update where
  exchange : String
  base : String
  quote : String
  sequenceId : Number
  asks : List Level2Point
  bids : List Level2Point
  deriving DecidableEq

/-- Modelled from the spec: the class `Level3Point` (`src/level3-point.js`),
which stores its three constructor arguments; the constructor does not convert
them, so `orderId` is whatever value the caller passes. -/
structure Level3Point where
  orderId : Val
  price : String
  size : String

/-- Modelled from the spec: the class `Level3Snapshot`
(`src/level3-snapshot.js`), a record of the properties it is constructed
from. -/
structure Level3Snapshot where
  exchange : String
  base : String
  quote : String
  sequenceId : Number
  asks : List Level3Point
  bids : List Level3Point

/-- Modelled from the spec: the class `Level3Update` (`src/level3-update.js`),
a record of the properties it is constructed from. -/
structure Level3Update where
  exchange : String
  base : String
  quote : String
  sequenceId : Number
  asks : List Level3Point
  bids : List Level3Point

/-- One call `this.emit(name, payload, market)`. -/
inductive Event where
  | ticker (t : Ticker) (market : Market)
  | trade (t : Trade) (market : Market)
  | l2snapshot (s : Level2Snapshot) (market : Market)
  | l2update (u : Level2Update) (market : Market)
  | l3snapshot (s : Level3Snapshot) (market : Market)
  | l3update (u : Level3Update) (market : Market)

/-! ## The client -/

/-- The state of a `BitfinexClient` the message path reads and writes: the
channel table `_channels` and the four subscription maps of `BasicClient`, each
seen through its method `get` (`none` is the `undefined` of a missing key).
The table is an ordinary object: `_channels` holds its own properties in
insertion order, `_channelsProto` its prototype, which is `none` as long as it
is `Object.prototype` (the object literal of the constructor) and `some kvs`
once an assignment to the key `__proto__` has replaced it by the frame
`obj kvs`. -/
structure Client where
  _channels : List (String × Val)
  _channelsProto : Option (List (String × Val))
  _tickerSubs : Val → Option Market
  _tradeSubs : Val → Option Market
  _level2UpdateSubs : Val → Option Market
  _level3UpdateSubs : Val → Option Market

/-- The write of the own property `k` of an object with the own properties
`t`: an existing property keeps its place, a new one is added last. -/
def ownSet (t : List (String × Val)) (k : String) (v : Val) : List (String × Val) :=
  if (t.lookup k).isSome then t.map (fun kv => if kv.1 = k then (k, v) else kv)
  else t ++ [(k, v)]

/-- The names of the properties of `Object.prototype`: eleven methods and the
accessor `__proto__`. -/
def objectPrototypeNames : List String :=
  ["constructor", "hasOwnProperty", "isPrototypeOf", "propertyIsEnumerable", "toLocaleString",
    "toString", "valueOf", "__defineGetter__", "__defineSetter__", "__lookupGetter__",
    "__lookupSetter__", "__proto__"]

/-- A built-in of the engine that a read of the table can return: a method of
`Object.prototype`, or `Object.prototype` itself. It is an object, so it is
truthy, and it has none of the properties the client reads from a binding
(`channel`, `pair`, `prec`, `chanId`); it is represented by the object without
own properties, which the client cannot tell from it. -/
def nativeObject : Val := Val.obj []

/-- The read `this._channels[k]`: the own property `k`; failing that the own
property `k` of the frame that has replaced the prototype, if one has; failing
that the property `k` of `Object.prototype`, where the getter of `__proto__`
returns the prototype of the table; `undefined` if there is none. -/
def tableGet (c : Client) (k : String) : Val :=
  match c._channels.lookup k with
  | some v => v
  | none =>
    match c._channelsProto with
    | some kvs =>
      match kvs.lookup k with
      | some v => v
      | none =>
        if k = "__proto__" then Val.obj kvs
        else if k ∈ objectPrototypeNames then nativeObject
        else Val.undefined
    | none => if k ∈ objectPrototypeNames then nativeObject else Val.undefined

/-- The assignment `this._channels[k] = v`. An own property `k` is overwritten.
Otherwise the key `__proto__` reaches the setter of `Object.prototype`, unless
the frame that has replaced the prototype has an own property of that name:
the setter makes the object `v` the prototype of the table and adds no own
property (it ignores a primitive `v`; the client assigns a frame whose `event`
is `"subscribed"`, which is an object that is not an array, so `null` and
arrays do not occur). Every other key, also one
that names a writable property found on the prototype chain, becomes a new own
property, added last. -/
def tableSet (c : Client) (k : String) (v : Val) : Client :=
  if (c._channels.lookup k).isSome then { c with _channels := ownSet c._channels k v }
  else if k = "__proto__" ∧
      (match c._channelsProto with
        | some kvs => (kvs.lookup k).isNone
        | none => true) = true then
    match v with
    | Val.obj kvs => { c with _channelsProto := some kvs }
    | _ => c
  else { c with _channels := ownSet c._channels k v }

/-- The array index a property name denotes, if it is one: the canonical
digits of an integer below `2^32 - 1`. -/
def arrayIndex (k : String) : Option Nat :=
  match digitsVal 10 k.toList with
  | some n => if Nat.repr n = k ∧ n < 4294967295 then some n else none
  | none => none

/-- The function `Object.values`: the values of the properties named by array
indices in ascending order, then the others in insertion order. -/
def objectValues (t : List (String × Val)) : List Val :=
  let ix := t.filterMap (fun kv => (arrayIndex kv.1).map (fun i => (i, kv.2)))
  let named := t.filter (fun kv => (arrayIndex kv.1).isNone)
  (ix.insertionSort (fun a b => a.1 ≤ b.1)).map Prod.snd ++ named.map Prod.snd

open Val

/-- The loop of `_findChannel` over the values of the table; falling off the
end returns `undefined`. -/
def _findChannelLoop (type remote_id : Val) : List Val → Except Err Val
  | [] => .ok undefined
  | chan :: rest => do
    if strictEq (← getField chan "pair") remote_id then
      if strictEq type (str "trades") && strictEq (← getField chan "channel") (str "trades") then
        return (← getField chan "chanId")
      if strictEq type (str "level2updates") && strictEq (← getField chan "channel") (str "book")
          && !strictEq (← getField chan "prec") (str "R0") then
        return (← getField chan "chanId")
      if strictEq type (str "level3updates") && strictEq (← getField chan "channel") (str "book")
          && strictEq (← getField chan "prec") (str "R0") then
        return (← getField chan "chanId")
    _findChannelLoop type remote_id rest

/-- The method `_findChannel(type, remote_id)`. -/
def _findChannel (c : Client) (type remote_id : Val) : Except Err Val :=
  _findChannelLoop type remote_id (objectValues c._channels)

/-- The method `_onTicker(msg, market)`; `now` is the reading of `Date.now()`. -/
def _onTicker (now : Nat) (msg : Val) (market : Market) : Except Err (List Event) := do
  let msgBody ← getIndex msg 1
  let row ← iterate msgBody
  let bid := nth row 0
  let bidSize := nth row 1
  let ask := nth row 2
  let askSize := nth row 3
  let change := nth row 4
  let changePercent := nth row 5
  let last := nth row 6
  let volume := nth row 7
  let high := nth row 8
  let low := nth row 9
  let open_ ← plus last change
  let ticker : Ticker := {
    exchange := "Bitfinex"
    base := market.base
    quote := market.quote
    timestamp := now
    last := ← toFixed last 8
    open_ := ← toFixed open_ 8
    high := ← toFixed high 8
    low := ← toFixed low 8
    volume := ← toFixed volume 8
    change := ← toFixed change 8
    changePercent := ← toFixed changePercent 2
    bid := ← toFixed bid 8
    bidVolume := ← toFixed bidSize 8
    ask := ← toFixed ask 8
    askVolume := ← toFixed askSize 8 }
  return [Event.ticker ticker market]

/-- The method `_onTradeMessage(msg, market)`. -/
def _onTradeMessage (msg : Val) (market : Market) : Except Err (List Event) := do
  let row ← iterate (← getIndex msg 2)
  let id := nth row 0
  let unix := nth row 1
  let amount := nth row 2
  let price := nth row 3
  let side := if (← gtZero amount) then "buy" else "sell"
  let price ← toFixed price 8
  let amount := (← mathAbs amount).toFixed 8
  let trade : Trade := {
    exchange := "Bitfinex"
    base := market.base
    quote := market.quote
    tradeId := ← toFixed id 0
    unix := ← times unix (num (Number.ofNat 1000))
    side := side
    price := price
    amount := amount }
  return [Event.trade trade market]

/-- The body of the loop of `_onLevel2Snapshot` over the rows: the arrays
`bids` and `asks` after the remaining rows are pushed. -/
def _onLevel2SnapshotLoop (bids asks : List Level2Point) :
    List Val → Except Err (List Level2Point × List Level2Point)
  | [] => .ok (bids, asks)
  | r :: rest => do
    let row ← iterate r
    let price := nth row 0
    let count := nth row 1
    let size := nth row 2
    let isBid ← gtZero size
    let result : Level2Point := {
      price := ← toFixed price 8
      size := (← mathAbs size).toFixed 8
      count := ← toFixed count 0 }
    if isBid then _onLevel2SnapshotLoop (bids ++ [result]) asks rest
    else _onLevel2SnapshotLoop bids (asks ++ [result]) rest

/-- The method `_onLevel2Snapshot(msg, market)`. -/
def _onLevel2Snapshot (msg : Val) (market : Market) : Except Err (List Event) := do
  let sequence ← unaryPlus (← getIndex msg 2)
  let rows ← iterate (← getIndex msg 1)
  let (bids, asks) ← _onLevel2SnapshotLoop [] [] rows
  let result : Level2Snapshot := {
    exchange := "Bitfinex"
    base := market.base
    quote := market.quote
    sequenceId := sequence
    bids := bids
    asks := asks }
  return [Event.l2snapshot result market]

/-- The method `_onLevel2Update(msg, market)`. The point is pushed to its side
before its size is reset, and the array holds the same object, so the reset is
seen through the array. -/
def _onLevel2Update (msg : Val) (market : Market) : Except Err (List Event) := do
  let row ← iterate (← getIndex msg 1)
  let price := nth row 0
  let count := nth row 1
  let size := nth row 2
  let sequence ← unaryPlus (← getIndex msg 2)
  if !(← hasToFixed price) then return []
  let point : Level2Point := {
    price := ← toFixed price 8
    size := (← mathAbs size).toFixed 8
    count := ← toFixed count 0 }
  let isBid ← gtZero size
  let isDelete := strictEq count (num (Number.ofNat 0))
  let point := if isDelete then { point with size := (Number.ofNat 0).toFixed 8 } else point
  let update : Level2Update := {
    exchange := "Bitfinex"
    base := market.base
    quote := market.quote
    sequenceId := sequence
    asks := if isBid then [] else [point]
    bids := if isBid then [point] else [] }
  return [Event.l2update update market]

/-- The body of the loop of `_onLevel3Snapshot` over the orders. -/
def _onLevel3SnapshotLoop (bids asks : List Level3Point) :
    List Val → Except Err (List Level3Point × List Level3Point)
  | [] => .ok (bids, asks)
  | p :: rest => do
    let point : Level3Point := {
      orderId := str (← toFixed (← getIndex p 0) 0)
      price := ← toFixed (← getIndex p 1) 8
      size := (← mathAbs (← getIndex p 2)).toFixed 8 }
    if (← gtZero (← getIndex p 2)) then _onLevel3SnapshotLoop (bids ++ [point]) asks rest
    else _onLevel3SnapshotLoop bids (asks ++ [point]) rest

/-- The method `_onLevel3Snapshot(msg, market)`. -/
def _onLevel3Snapshot (msg : Val) (market : Market) : Except Err (List Event) := do
  let orders ← getIndex msg 1
  let sequence ← unaryPlus (← getIndex msg 2)
  let (bids, asks) ← _onLevel3SnapshotLoop [] [] (← iterate orders)
  let result : Level3Snapshot := {
    exchange := "Bitfinex"
    base := market.base
    quote := market.quote
    sequenceId := sequence
    asks := asks
    bids := bids }
  return [Event.l3snapshot result market]

/-- The method `_onLevel3Update(msg, market)`. -/
def _onLevel3Update (msg : Val) (market : Market) : Except Err (List Event) := do
  let row ← iterate (← getIndex msg 1)
  let orderId := nth row 0
  let price := nth row 1
  let size := nth row 2
  let sequence ← unaryPlus (← getIndex msg 2)
  let point : Level3Point := {
    orderId := orderId
    price := ← toFixed price 8
    size := (← mathAbs size).toFixed 8 }
  let isBid ← gtZero size
  let result : Level3Update := {
    exchange := "Bitfinex"
    base := market.base
    quote := market.quote
    sequenceId := sequence
    asks := if isBid then [] else [point]
    bids := if isBid then [point] else [] }
  return [Event.l3update result market]

/-- The method `_onMessage(raw)` on the decoded frame `msg = JSON.parse(raw)`:
the client after the call and the events emitted, or the exception thrown. A
call that throws leaves the client as it was and has emitted nothing: the only
assignment is followed by `return`, and every decoder calls `emit` in its last
statement. -/
def _onMessage (c : Client) (now : Nat) (msg : Val) : Except Err (Client × List Event) := do
  -- capture channel metadata
  if strictEq (← getField msg "event") (str "subscribed") then
    let key ← toPropertyKey (← getField msg "chanId")
    return (tableSet c key msg, [])
  -- lookup channel
  let channel := tableGet c (← toPropertyKey (← getIndex msg 0))
  if !truthy channel then return (c, [])
  -- ignore heartbeats
  if strictEq (← getIndex msg 1) (str "hb") then return (c, [])
  if strictEq (← getField channel "channel") (str "ticker") then
    match c._tickerSubs (← getField channel "pair") with
    | none => return (c, [])
    | some market => return (c, ← _onTicker now msg market)
  -- trades
  if strictEq (← getField channel "channel") (str "trades")
      && strictEq (← getIndex msg 1) (str "tu") then
    match c._tradeSubs (← getField channel "pair") with
    | none => return (c, [])
    | some market => return (c, ← _onTradeMessage msg market)
  -- level3
  if strictEq (← getField channel "channel") (str "book")
      && strictEq (← getField channel "prec") (str "R0") then
    match c._level3UpdateSubs (← getField channel "pair") with
    | none => return (c, [])
    | some market =>
      if isArray (← getIndex (← getIndex msg 1) 0) then return (c, ← _onLevel3Snapshot msg market)
      else return (c, ← _onLevel3Update msg market)
  -- level2
  if strictEq (← getField channel "channel") (str "book") then
    match c._level2UpdateSubs (← getField channel "pair") with
    | none => return (c, [])
    | some market =>
      if isArray (← getIndex (← getIndex msg 1) 0) then return (c, ← _onLevel2Snapshot msg market)
      else return (c, ← _onLevel2Update msg market)
  return (c, [])

/-! ## Bindings and sample inputs -/

/-- A value of the channel table as a subscription acknowledgment creates it
(the `ChannelBinding` of the data model): an object that carries a channel id,
that is, whose property `chanId` is not `undefined`. -/
def isBinding : Val → Bool
  | obj kvs =>
    match ownProp kvs "chanId" with
    | undefined => false
    | _ => true
  | _ => false

/-- The specification of `findByTypeAndPair`, in its own words: the binding
`chan` has the pair `p` and matches the logical type `t`, where `trades`
matches the channel `trades`, `level2updates` matches the channel `book` with a
precision that is not `R0`, and `level3updates` matches the channel `book` with
the precision `R0`. -/
def Selects (t p : String) (chan : Val) : Prop :=
  getField chan "pair" = .ok (str p) ∧
    ((t = "trades" ∧ getField chan "channel" = .ok (str "trades")) ∨
     (t = "level2updates" ∧ getField chan "channel" = .ok (str "book") ∧
        getField chan "prec" ≠ .ok (str "R0")) ∨
     (t = "level3updates" ∧ getField chan "channel" = .ok (str "book") ∧
        getField chan "prec" = .ok (str "R0")))

/-- Sample market: the context of the pair `BTCUSD`. -/
def sampleMarket : Market := ⟨"BTC", "USD"⟩

/-- Sample acknowledgment: the raw book of `BTCUSD` on channel 5. -/
def sampleAck : Val :=
  obj [("event", str "subscribed"), ("channel", str "book"), ("chanId", num (Number.ofNat 5)),
    ("pair", str "BTCUSD"), ("prec", str "R0")]

/-- Sample client: no channel bound, every pair subscribed on every stream. -/
def sampleClient : Client :=
  { _channels := []
    _channelsProto := none
    _tickerSubs := fun _ => some sampleMarket
    _tradeSubs := fun _ => some sampleMarket
    _level2UpdateSubs := fun _ => some sampleMarket
    _level3UpdateSubs := fun _ => some sampleMarket }

/-- Sample client after `sampleAck`: channel 5 bound. -/
def sampleBound : Client := { sampleClient with _channels := [("5", sampleAck)] }

/-! ## Observations on events and Numbers -/

/-- The name under which an event is emitted: the first argument of its call
of `emit`. -/
def Event.name : Event → String
  | .ticker _ _ => "ticker"
  | .trade _ _ => "trade"
  | .l2snapshot _ _ => "l2snapshot"
  | .l2update _ _ => "l2update"
  | .l3snapshot _ _ => "l3snapshot"
  | .l3update _ _ => "l3update"

/-- The property `sequenceId` of the payload of a book event (a ticker and a
trade have none). -/
def Event.sequenceId : Event → Option Number
  | .ticker _ _ => none
  | .trade _ _ => none
  | .l2snapshot s _ => some s.sequenceId
  | .l2update u _ => some u.sequenceId
  | .l3snapshot s _ => some s.sequenceId
  | .l3update u _ => some u.sequenceId

/-- The number of points the payload of a book event carries, bids and asks
together (a ticker and a trade have none). -/
def Event.points : Event → Nat
  | .ticker _ _ => 0
  | .trade _ _ => 0
  | .l2snapshot s _ => s.bids.length + s.asks.length
  | .l2update u _ => u.bids.length + u.asks.length
  | .l3snapshot s _ => s.bids.length + s.asks.length
  | .l3update u _ => u.bids.length + u.asks.length

/-- The function `Number.isInteger`: a finite value without fraction. -/
def Number.isInteger : Number → Bool
  | .fin _ m e => (frac m e).1 % (frac m e).2 == 0
  | _ => false

/-! ## Outbound requests -/

/-- The method `_sendUnsubscribe(chanId)`: the client after the call and the
objects handed to `JSON.stringify` and `_wss.send`. -/
def _sendUnsubscribe (c : Client) (chanId : Val) : Client × List Val :=
  if truthy chanId then (c, [obj [("event", str "unsubscribe"), ("chanId", chanId)]])
  else (c, [])

/-- The method `_sendSubTicker(remote_id)`. -/
def _sendSubTicker (c : Client) (remote_id : Val) : Client × List Val :=
  (c, [obj [("event", str "subscribe"), ("channel", str "ticker"), ("pair", remote_id)]])

/-- The method `_sendUnsubTicker(remote_id)`. -/
def _sendUnsubTicker (c : Client) (remote_id : Val) : Client × List Val :=
  (c, [obj [("event", str "unsubscribe"), ("channel", str "ticker"), ("pair", remote_id)]])

/-- The method `_sendSubTrades(remote_id)`. -/
def _sendSubTrades (c : Client) (remote_id : Val) : Client × List Val :=
  (c, [obj [("event", str "subscribe"), ("channel", str "trades"), ("pair", remote_id)]])

/-- The method `_sendUnsubTrades(remote_id)`. -/
def _sendUnsubTrades (c : Client) (remote_id : Val) : Except Err (Client × List Val) := do
  let chanId ← _findChannel c (str "trades") remote_id
  return _sendUnsubscribe c chanId

/-- The method `_sendSubLevel2Updates(remote_id)`; the request leaves from a
timer two seconds later, a delay that is not part of the state. -/
def _sendSubLevel2Updates (c : Client) (remote_id : Val) : Client × List Val :=
  (c, [obj [("event", str "subscribe"), ("channel", str "book"), ("pair", remote_id),
    ("len", str "250")]])

/-- The method `_sendUnsubLevel2Updates(remote_id)`. -/
def _sendUnsubLevel2Updates (c : Client) (remote_id : Val) : Except Err (Client × List Val) := do
  let chanId ← _findChannel c (str "level2updates") remote_id
  return _sendUnsubscribe c chanId

/-- The method `_sendSubLevel3Updates(remote_id)`. -/
def _sendSubLevel3Updates (c : Client) (remote_id : Val) : Client × List Val :=
  (c, [obj [("event", str "subscribe"), ("channel", str "book"), ("pair", remote_id),
    ("prec", str "R0"), ("length", str "100")]])

/-- The method `_sendUnsubLevel3Updates(remote_id)`. -/
def _sendUnsubLevel3Updates (c : Client) (remote_id : Val) : Except Err (Client × List Val) := do
  let chanId ← _findChannel c (str "level3updates") remote_id
  return _sendUnsubscribe c chanId

/-! ## Sequences of frames -/

/-- Modelled from the spec: the message loop of the transport, which hands the
decoded frames to `_onMessage` strictly in arrival order, one at a time. Each
frame comes with the reading of the clock at its arrival; a frame on which
`_onMessage` throws leaves the client as it was. The result is the client
after the last frame. -/
def processFrames (c : Client) : List (Nat × Val) → Client
  | [] => c
  | f :: rest =>
    match _onMessage c f.1 f.2 with
    | .ok r => processFrames r.1 rest
    | .error _ => processFrames c rest

/-! ## More sample inputs -/

/-- Sample acknowledgment: the ticker of `BTCUSD` on channel 1. -/
def sampleTickerAck : Val :=
  obj [("event", str "subscribed"), ("channel", str "ticker"), ("chanId", num (Number.ofNat 1)),
    ("pair", str "BTCUSD")]

/-- Sample acknowledgment: the trades of `BTCUSD` on channel 2. -/
def sampleTradesAck : Val :=
  obj [("event", str "subscribed"), ("channel", str "trades"), ("chanId", num (Number.ofNat 2)),
    ("pair", str "BTCUSD")]

/-- Sample acknowledgment: the aggregated book of `BTCUSD` on channel 3 (no
`prec`, as `_sendSubLevel2Updates` requests it). -/
def sampleBookAck : Val :=
  obj [("event", str "subscribed"), ("channel", str "book"), ("chanId", num (Number.ofNat 3)),
    ("pair", str "BTCUSD"), ("len", str "250")]

/-- Sample client with the four channels bound: ticker 1, trades 2, aggregated
book 3, raw book 5, and a subscriber on every stream. -/
def sampleFull : Client :=
  { sampleClient with
    _channels := [("1", sampleTickerAck), ("2", sampleTradesAck), ("3", sampleBookAck),
      ("5", sampleAck)] }

/-- Sample client with the same four channels bound and no subscriber left on
any stream. -/
def sampleSilent : Client :=
  { _channels := sampleFull._channels
    _channelsProto := none
    _tickerSubs := fun _ => none
    _tradeSubs := fun _ => none
    _level2UpdateSubs := fun _ => none
    _level3UpdateSubs := fun _ => none }

/-- Sample frame: a ticker row on channel 1. -/
def sampleTickerFrame : Val :=
  arr [num (Number.ofNat 1), arr [num (Number.ofNat 100), num (Number.ofNat 1),
    num (Number.ofNat 102), num (Number.ofNat 1), num (Number.ofNat 2),
    num (Number.ofDecimal false 15 (-1)), num (Number.ofNat 101), num (Number.ofNat 500),
    num (Number.ofNat 105), num (Number.ofNat 99)], num (Number.ofNat 7)]

/-- Sample frame: an executed trade (`te`), not a trade update, on channel 2. -/
def sampleTradeExecuted : Val :=
  arr [num (Number.ofNat 2), str "te", arr [num (Number.ofNat 1), num (Number.ofNat 1609712228),
    num (Number.ofDecimal false 5 (-3)), num (Number.ofNat 33432)], num (Number.ofNat 6)]

/-- Sample frame: a heartbeat on channel 3. -/
def sampleHeartbeat : Val := arr [num (Number.ofNat 3), str "hb", num (Number.ofNat 7)]

/-- Sample acknowledgment: channel 5 again, now for the trades of `ETHUSD`. -/
def sampleRebind : Val :=
  obj [("event", str "subscribed"), ("channel", str "trades"), ("chanId", num (Number.ofNat 5)),
    ("pair", str "ETHUSD")]

/-- Sample acknowledgment whose channel id is the string `__proto__`. -/
def sampleProtoAck : Val := obj [("event", str "subscribed"), ("chanId", str "__proto__")]

/-- Sample acknowledgment whose channel id is the string `__proto__` and which
carries, under the name `7`, an object that reads like a ticker binding. -/
def sampleProtoAck7 : Val :=
  obj [("event", str "subscribed"), ("chanId", str "__proto__"), ("7", sampleTickerAck)]

/-- Sample acknowledgment whose channel id is an object with an own property
`toString`, which has no primitive value. -/
def sampleKeylessAck : Val :=
  obj [("event", str "subscribed"), ("chanId", obj [("toString", num (Number.ofNat 0))])]

/-- Sample frame whose first element is an object with an own property
`toString`. -/
def sampleKeylessFrame : Val :=
  arr [obj [("toString", num (Number.ofNat 0))],
    arr [num (Number.ofNat 100), num (Number.ofNat 1), num (Number.ofNat 2)],
    num (Number.ofNat 7)]

/-- Sample acknowledgment without channel id: the trades of `BTCUSD`. -/
def sampleAckNoId : Val :=
  obj [("event", str "subscribed"), ("channel", str "trades"), ("pair", str "BTCUSD")]

/-- Sample client after `sampleAckNoId`: the binding is stored under the name
`undefined`. -/
def sampleNoId : Client := { sampleClient with _channels := [("undefined", sampleAckNoId)] }

end Bitfinex


namespace Bitfinex
open Val

/-! ## Lemmas: the channel table -/

theorem lookup_map_set (t : List (String × Val)) (k k' : String) (v : Val) :
    (t.map (fun kv => if kv.1 = k then (k, v) else kv)).lookup k' =
      if k' = k then (t.lookup k).map (fun _ => v) else t.lookup k' := by
  induction t with
  | nil => simp
  | cons hd tl ih =>
    obtain ⟨a, b⟩ := hd
    rw [List.map_cons, List.lookup_cons, List.lookup_cons, List.lookup_cons, ih]
    by_cases hak : a = k
    · subst hak
      rw [if_pos rfl]
      by_cases hk : k' = a
      · subst hk; simp
      · have h1 : (k' == a) = false := by simpa using hk
        simp [h1, hk]
    · rw [if_neg hak]
      have h2 : (k == a) = false := by simpa using fun h => hak h.symm
      by_cases hk : k' = k
      · subst hk; simp [h2]
      · by_cases hka : k' = a
        · subst hka; simp [hk]
        · have h1 : (k' == a) = false := by simpa using hka
          simp [h1, hk]

theorem lookup_append_single (t : List (String × Val)) (k k' : String) (v : Val) :
    (t ++ [(k, v)]).lookup k' =
      match t.lookup k' with
      | some w => some w
      | none => if k' = k then some v else none := by
  induction t with
  | nil =>
    by_cases h : k' = k
    · subst h; simp [List.lookup]
    · have h1 : (k' == k) = false := by simpa using h
      simp [List.lookup, h, h1]
  | cons hd tl ih =>
    obtain ⟨a, b⟩ := hd
    rw [List.cons_append, List.lookup_cons, List.lookup_cons, ih]
    by_cases hka : k' = a
    · subst hka; simp
    · have h1 : (k' == a) = false := by simpa using hka
      simp [h1]

theorem lookup_ownSet (t : List (String × Val)) (k k' : String) (v : Val) :
    (ownSet t k v).lookup k' = if k' = k then some v else t.lookup k' := by
  unfold ownSet
  cases h : t.lookup k with
  | none =>
    simp only [Option.isSome_none, Bool.false_eq_true, if_false, lookup_append_single]
    by_cases hk : k' = k
    · subst hk
      simp [h]
    · simp only [if_neg hk]
      cases t.lookup k' <;> rfl
  | some w =>
    simp only [Option.isSome_some, if_true, lookup_map_set, h, Option.map_some']

theorem tableSet_of_ne (c : Client) (k : String) (v : Val) (h : k ≠ "__proto__") :
    tableSet c k v = { c with _channels := ownSet c._channels k v } := by
  unfold tableSet
  split
  · rfl
  · simp [h]

theorem tableGet_tableSet_self (c : Client) (k : String) (v : Val) (h : k ≠ "__proto__") :
    tableGet (tableSet c k v) k = v := by
  rw [tableSet_of_ne c k v h]
  simp [tableGet, lookup_ownSet]

theorem tableGet_tableSet_other (c : Client) (k k' : String) (v : Val) (h : k ≠ "__proto__")
    (hne : k' ≠ k) : tableGet (tableSet c k v) k' = tableGet c k' := by
  rw [tableSet_of_ne c k v h]
  simp [tableGet, lookup_ownSet, hne]

theorem subscribed_frame_obj (msg : Val) (h : getField msg "event" = .ok (str "subscribed")) :
    ∃ kvs, msg = obj kvs := by
  cases msg with
  | obj kvs => exact ⟨kvs, rfl⟩
  | undefined => exact Except.noConfusion h
  | null => exact Except.noConfusion h
  | bool b =>
    injection h with h
    exact Val.noConfusion h
  | num n =>
    injection h with h
    exact Val.noConfusion h
  | str s =>
    injection h with h
    exact Val.noConfusion h
  | arr xs =>
    injection h with h
    exact Val.noConfusion h

theorem tableGet_unbound (c : Client) (k : String)
    (hown : c._channels.lookup k = none)
    (hproto : ∀ kvs, c._channelsProto = some kvs → kvs.lookup k = none ∧ k ≠ "__proto__") :
    tableGet c k = undefined ∨ tableGet c k = nativeObject := by
  unfold tableGet
  rw [hown]
  cases hp : c._channelsProto with
  | none =>
    by_cases hn : k ∈ objectPrototypeNames
    · exact Or.inr (by simp [hn])
    · exact Or.inl (by simp [hn])
  | some kvs =>
    obtain ⟨hl, hk⟩ := hproto kvs hp
    by_cases hn : k ∈ objectPrototypeNames
    · exact Or.inr (by simp [hl, hk, hn])
    · exact Or.inl (by simp [hl, hk, hn])

/-! ## Lemmas: numbers and `===` -/

theorem isDelete_eq (cnt : Number) : Number.eq cnt (Number.ofNat 0) = cnt.isZero := by
  cases cnt with
  | nan => rfl
  | inf b => rfl
  | fin s m e =>
    cases m with
    | zero => simp [Number.eq, Number.ofNat, roundRat, Number.isZero]
    | succ k => simp [Number.eq, Number.ofNat, roundRat, Number.isZero]

theorem zero_toFixed8 : (Number.ofNat 0).toFixed 8 = "0.00000000" := by decide

theorem isPos_false_of_isNeg (x : Number) (h : x.isNeg = true) : x.isPos = false := by
  cases x with
  | nan => rfl
  | inf b => simpa [Number.isNeg, Number.isPos] using h
  | fin s m e =>
    simp only [Number.isNeg, Bool.and_eq_true] at h
    simp [Number.isPos, h.1]

theorem abs_not_isNeg (x : Number) : x.abs.isNeg = false := by
  cases x <;> simp [Number.abs, Number.isNeg]

theorem strictEq_str_iff (v : Val) (s : String) : strictEq v (str s) = true ↔ v = str s := by
  cases v <;> simp [strictEq]

theorem strictEq_str_str (s t : String) : strictEq (str s) (str t) = decide (s = t) := by
  by_cases h : s = t <;> simp [h, strictEq]

theorem strictEq_str_false (v : Val) (s : String) (h : v ≠ str s) : strictEq v (str s) = false := by
  cases hb : strictEq v (str s) with
  | false => rfl
  | true => exact absurd ((strictEq_str_iff v s).mp hb) h

theorem strictEq_str_true (s : String) : strictEq (str s) (str s) = true := by
  simp [strictEq]

/-! ## Lemmas: the decoders on rows of Numbers -/

theorem level2SnapshotLoop_rows (rows : List (Number × Number × Number)) :
    ∀ bids asks : List Level2Point,
    _onLevel2SnapshotLoop bids asks (rows.map (fun r => arr [num r.1, num r.2.1, num r.2.2])) =
      .ok (bids ++ (rows.filter (fun r => r.2.2.isPos)).map
              (fun r => ⟨r.1.toFixed 8, r.2.2.abs.toFixed 8, r.2.1.toFixed 0⟩),
           asks ++ (rows.filter (fun r => !r.2.2.isPos)).map
              (fun r => ⟨r.1.toFixed 8, r.2.2.abs.toFixed 8, r.2.1.toFixed 0⟩)) := by
  induction rows with
  | nil => intro bids asks; simp [_onLevel2SnapshotLoop]
  | cons r rest ih =>
    intro bids asks
    obtain ⟨p, c, s⟩ := r
    cases hs : s.isPos <;>
      simp [_onLevel2SnapshotLoop, iterate, nth, gtZero, toNumber, Val.toFixed, mathAbs, hs, ih,
        bind, Except.bind, pure, Except.pure, Except.map]

theorem level2Snapshot_rows (ch : Val) (rows : List (Number × Number × Number)) (sq : Number)
    (market : Market) :
    _onLevel2Snapshot (arr [ch, arr (rows.map (fun r => arr [num r.1, num r.2.1, num r.2.2])), num sq])
        market =
      .ok [Event.l2snapshot {
        exchange := "Bitfinex", base := market.base, quote := market.quote, sequenceId := sq,
        bids := (rows.filter (fun r => r.2.2.isPos)).map
          (fun r => ⟨r.1.toFixed 8, r.2.2.abs.toFixed 8, r.2.1.toFixed 0⟩),
        asks := (rows.filter (fun r => !r.2.2.isPos)).map
          (fun r => ⟨r.1.toFixed 8, r.2.2.abs.toFixed 8, r.2.1.toFixed 0⟩) } market] := by
  simp [_onLevel2Snapshot, getIndex, iterate, unaryPlus, toNumber, level2SnapshotLoop_rows,
    bind, Except.bind, pure, Except.pure]

theorem level3SnapshotLoop_rows (rows : List (Number × Number × Number)) :
    ∀ bids asks : List Level3Point,
    _onLevel3SnapshotLoop bids asks (rows.map (fun r => arr [num r.1, num r.2.1, num r.2.2])) =
      .ok (bids ++ (rows.filter (fun r => r.2.2.isPos)).map
              (fun r => ⟨str (r.1.toFixed 0), r.2.1.toFixed 8, r.2.2.abs.toFixed 8⟩),
           asks ++ (rows.filter (fun r => !r.2.2.isPos)).map
              (fun r => ⟨str (r.1.toFixed 0), r.2.1.toFixed 8, r.2.2.abs.toFixed 8⟩)) := by
  induction rows with
  | nil => intro bids asks; simp [_onLevel3SnapshotLoop]
  | cons r rest ih =>
    intro bids asks
    obtain ⟨p, c, s⟩ := r
    cases hs : s.isPos <;>
      simp [_onLevel3SnapshotLoop, getIndex, gtZero, toNumber, Val.toFixed, mathAbs, hs, ih,
        bind, Except.bind, pure, Except.pure, Except.map]

theorem level3Snapshot_rows (ch : Val) (rows : List (Number × Number × Number)) (sq : Number)
    (market : Market) :
    _onLevel3Snapshot (arr [ch, arr (rows.map (fun r => arr [num r.1, num r.2.1, num r.2.2])), num sq])
        market =
      .ok [Event.l3snapshot {
        exchange := "Bitfinex", base := market.base, quote := market.quote, sequenceId := sq,
        bids := (rows.filter (fun r => r.2.2.isPos)).map
          (fun r => ⟨str (r.1.toFixed 0), r.2.1.toFixed 8, r.2.2.abs.toFixed 8⟩),
        asks := (rows.filter (fun r => !r.2.2.isPos)).map
          (fun r => ⟨str (r.1.toFixed 0), r.2.1.toFixed 8, r.2.2.abs.toFixed 8⟩) } market] := by
  simp [_onLevel3Snapshot, getIndex, iterate, unaryPlus, toNumber, level3SnapshotLoop_rows,
    bind, Except.bind, pure, Except.pure]

theorem level2Update_row (ch : Val) (p cnt sz sq : Number) (market : Market) :
    _onLevel2Update (arr [ch, arr [num p, num cnt, num sz], num sq]) market =
      .ok [Event.l2update {
        exchange := "Bitfinex", base := market.base, quote := market.quote, sequenceId := sq,
        asks := if sz.isPos then [] else
          [⟨p.toFixed 8, if cnt.isZero then "0.00000000" else sz.abs.toFixed 8, cnt.toFixed 0⟩],
        bids := if sz.isPos then
          [⟨p.toFixed 8, if cnt.isZero then "0.00000000" else sz.abs.toFixed 8, cnt.toFixed 0⟩]
          else [] } market] := by
  simp [_onLevel2Update, getIndex, iterate, nth, unaryPlus, toNumber, hasToFixed, Val.toFixed,
    mathAbs, gtZero, strictEq, isDelete_eq, zero_toFixed8, bind, Except.bind, pure, Except.pure,
    Except.map]
  cases cnt.isZero <;> cases sz.isPos <;> simp

theorem level3Update_row (ch : Val) (oid p sz sq : Number) (market : Market) :
    _onLevel3Update (arr [ch, arr [num oid, num p, num sz], num sq]) market =
      .ok [Event.l3update {
        exchange := "Bitfinex", base := market.base, quote := market.quote, sequenceId := sq,
        asks := if sz.isPos then [] else [⟨num oid, p.toFixed 8, sz.abs.toFixed 8⟩],
        bids := if sz.isPos then [⟨num oid, p.toFixed 8, sz.abs.toFixed 8⟩] else [] } market] := by
  simp [_onLevel3Update, getIndex, iterate, nth, unaryPlus, toNumber, Val.toFixed,
    mathAbs, gtZero, bind, Except.bind, pure, Except.pure, Except.map]

theorem ticker_row (now : Nat) (ch : Val) (rest : List Val)
    (bid bidSize ask askSize change changePercent last volume high low : Number) (market : Market) :
    _onTicker now (arr (ch :: arr [num bid, num bidSize, num ask, num askSize, num change,
        num changePercent, num last, num volume, num high, num low] :: rest)) market =
      .ok [Event.ticker {
        exchange := "Bitfinex", base := market.base, quote := market.quote, timestamp := now,
        last := last.toFixed 8, open_ := (Number.add last change).toFixed 8,
        high := high.toFixed 8, low := low.toFixed 8, volume := volume.toFixed 8,
        change := change.toFixed 8, changePercent := changePercent.toFixed 2,
        bid := bid.toFixed 8, bidVolume := bidSize.toFixed 8,
        ask := ask.toFixed 8, askVolume := askSize.toFixed 8 } market] := by
  simp [_onTicker, getIndex, iterate, nth, plus, toPrimitive, toNumber, Val.toFixed,
    bind, Except.bind, pure, Except.pure, Except.map]

theorem trade_row (ch tag : Val) (rest : List Val) (id unix amount price : Number) (market : Market) :
    _onTradeMessage (arr (ch :: tag :: arr [num id, num unix, num amount, num price] :: rest)) market =
      .ok [Event.trade {
        exchange := "Bitfinex", base := market.base, quote := market.quote,
        tradeId := id.toFixed 0, unix := num (Number.mul unix (Number.ofNat 1000)),
        side := if amount.isPos then "buy" else "sell",
        price := price.toFixed 8, amount := amount.abs.toFixed 8 } market] := by
  simp [_onTradeMessage, getIndex, iterate, nth, times, toNumber, Val.toFixed, gtZero, mathAbs,
    bind, Except.bind, pure, Except.pure, Except.map]

/-! ## Lemmas: the search of `_findChannel` -/

theorem mem_objectValues (t : List (String × Val)) (v : Val) :
    v ∈ objectValues t ↔ ∃ k, (k, v) ∈ t := by
  unfold objectValues
  simp only [List.mem_append, List.mem_map]
  constructor
  · rintro (⟨⟨i, w⟩, hm, rfl⟩ | ⟨⟨k, w⟩, hm, rfl⟩)
    · have hm' := (List.perm_insertionSort _ _).mem_iff.mp hm
      rw [List.mem_filterMap] at hm'
      obtain ⟨⟨k, w'⟩, hkw, hsome⟩ := hm'
      cases hix : arrayIndex k with
      | none => simp [hix] at hsome
      | some j =>
        simp [hix] at hsome
        exact ⟨k, by rw [← hsome.2]; exact hkw⟩
    · exact ⟨k, (List.mem_filter.mp hm).1⟩
  · rintro ⟨k, hk⟩
    cases hix : arrayIndex k with
    | none =>
      right
      exact ⟨(k, v), List.mem_filter.mpr ⟨hk, by simp [hix]⟩, rfl⟩
    | some j =>
      left
      refine ⟨(j, v), (List.perm_insertionSort _ _).mem_iff.mpr ?_, rfl⟩
      rw [List.mem_filterMap]
      exact ⟨(k, v), hk, by simp [hix]⟩

theorem isBinding_obj (v : Val) (h : isBinding v = true) :
    ∃ kvs, v = obj kvs ∧ ownProp kvs "chanId" ≠ undefined := by
  cases v with
  | obj kvs =>
    refine ⟨kvs, rfl, ?_⟩
    intro hu
    simp [isBinding, hu] at h
  | _ => simp [isBinding] at h

theorem findChannelLoop_hit (t p : String) (kvs : List (String × Val)) (rest : List Val)
    (h : ownProp kvs "pair" = str p ∧
          ((t = "trades" ∧ ownProp kvs "channel" = str "trades") ∨
           (t = "level2updates" ∧ ownProp kvs "channel" = str "book" ∧
              ownProp kvs "prec" ≠ str "R0") ∨
           (t = "level3updates" ∧ ownProp kvs "channel" = str "book" ∧
              ownProp kvs "prec" = str "R0"))) :
    _findChannelLoop (str t) (str p) (obj kvs :: rest) = .ok (ownProp kvs "chanId") := by
  obtain ⟨hp, h1 | h2 | h3⟩ := h
  · obtain ⟨rfl, hc⟩ := h1
    simp [_findChannelLoop, getField, bind, Except.bind, pure, Except.pure, hp, hc,
      strictEq_str_true]
  · obtain ⟨rfl, hc, hr⟩ := h2
    simp [_findChannelLoop, getField, bind, Except.bind, pure, Except.pure, hp, hc,
      strictEq_str_true, strictEq_str_str, strictEq_str_false _ _ hr]
  · obtain ⟨rfl, hc, hr⟩ := h3
    simp [_findChannelLoop, getField, bind, Except.bind, pure, Except.pure, hp, hc, hr,
      strictEq_str_true, strictEq_str_str]

theorem findChannelLoop_miss (t p : String) (kvs : List (String × Val)) (rest : List Val)
    (h : ¬ (ownProp kvs "pair" = str p ∧
          ((t = "trades" ∧ ownProp kvs "channel" = str "trades") ∨
           (t = "level2updates" ∧ ownProp kvs "channel" = str "book" ∧
              ownProp kvs "prec" ≠ str "R0") ∨
           (t = "level3updates" ∧ ownProp kvs "channel" = str "book" ∧
              ownProp kvs "prec" = str "R0")))) :
    _findChannelLoop (str t) (str p) (obj kvs :: rest) =
      _findChannelLoop (str t) (str p) rest := by
  by_cases hp : ownProp kvs "pair" = str p
  · have e1 : t = "trades" → strictEq (ownProp kvs "channel") (str "trades") = false := by
      intro ht
      exact strictEq_str_false _ _ (fun hc => h ⟨hp, Or.inl ⟨ht, hc⟩⟩)
    have e2 : t = "level2updates" → strictEq (ownProp kvs "channel") (str "book") = true →
        strictEq (ownProp kvs "prec") (str "R0") = true := by
      intro ht hc
      by_contra hr
      exact h ⟨hp, Or.inr (Or.inl ⟨ht, (strictEq_str_iff _ _).mp hc,
        fun hh => hr ((strictEq_str_iff _ _).mpr hh)⟩)⟩
    have e3 : t = "level3updates" → strictEq (ownProp kvs "channel") (str "book") = true →
        strictEq (ownProp kvs "prec") (str "R0") = false := by
      intro ht hc
      exact strictEq_str_false _ _ (fun hr => h ⟨hp, Or.inr (Or.inr ⟨ht,
        (strictEq_str_iff _ _).mp hc, hr⟩)⟩)
    simp only [_findChannelLoop, getField, bind, Except.bind, pure, Except.pure, hp,
      strictEq_str_true, strictEq_str_str, if_true]
    by_cases h1 : t = "trades"
    · subst h1
      simp [e1 rfl]
    · by_cases h2 : t = "level2updates"
      · subst h2
        cases hc : strictEq (ownProp kvs "channel") (str "book") with
        | false => simp
        | true => simp [e2 rfl hc]
      · by_cases h3 : t = "level3updates"
        · subst h3
          cases hc : strictEq (ownProp kvs "channel") (str "book") with
          | false => simp
          | true => simp [e3 rfl hc]
        · simp [h1, h2, h3]
  · simp [_findChannelLoop, getField, bind, Except.bind, pure, Except.pure,
      strictEq_str_false _ _ hp]

theorem selects_obj (t p : String) (kvs : List (String × Val)) :
    Selects t p (obj kvs) ↔
      (ownProp kvs "pair" = str p ∧
          ((t = "trades" ∧ ownProp kvs "channel" = str "trades") ∨
           (t = "level2updates" ∧ ownProp kvs "channel" = str "book" ∧
              ownProp kvs "prec" ≠ str "R0") ∨
           (t = "level3updates" ∧ ownProp kvs "channel" = str "book" ∧
              ownProp kvs "prec" = str "R0"))) := by
  simp [Selects, getField]

theorem findChannelLoop_spec (t p : String) :
    ∀ vs : List Val, (∀ v ∈ vs, isBinding v = true) →
      ∃ r, _findChannelLoop (str t) (str p) vs = .ok r ∧
        (r ≠ undefined ↔ ∃ v ∈ vs, Selects t p v) ∧
        (r ≠ undefined → ∃ v ∈ vs, Selects t p v ∧ getField v "chanId" = .ok r) := by
  intro vs
  induction vs with
  | nil =>
    intro _
    exact ⟨undefined, rfl, by simp, by simp⟩
  | cons v rest ih =>
    intro hwf
    obtain ⟨kvs, rfl, hid⟩ := isBinding_obj v (hwf v (List.mem_cons_self _ _))
    obtain ⟨r, hr, hiff, hsel⟩ := ih (fun w hw => hwf w (List.mem_cons_of_mem _ hw))
    by_cases hm : Selects t p (obj kvs)
    · rw [findChannelLoop_hit t p kvs rest ((selects_obj t p kvs).mp hm)]
      refine ⟨ownProp kvs "chanId", rfl, ?_, ?_⟩
      · exact ⟨fun _ => ⟨obj kvs, List.mem_cons_self _ _, hm⟩, fun _ => hid⟩
      · exact fun _ => ⟨obj kvs, List.mem_cons_self _ _, hm, rfl⟩
    · rw [findChannelLoop_miss t p kvs rest (fun h => hm ((selects_obj t p kvs).mpr h))]
      refine ⟨r, hr, ?_, ?_⟩
      · rw [hiff]
        constructor
        · rintro ⟨w, hw, hs⟩
          exact ⟨w, List.mem_cons_of_mem _ hw, hs⟩
        · rintro ⟨w, hw, hs⟩
          rcases List.mem_cons.mp hw with rfl | hw'
          · exact absurd hs hm
          · exact ⟨w, hw', hs⟩
      · intro hne
        obtain ⟨w, hw, hs, hc⟩ := hsel hne
        exact ⟨w, List.mem_cons_of_mem _ hw, hs, hc⟩

/-! ## Lemmas: property keys of channel ids -/

theorem toPropertyKey_num (n : Number) : toPropertyKey (num n) = .ok n.toString := by
  simp [toPropertyKey, toStr]

theorem toPropertyKey_five : toPropertyKey (num (Number.ofNat 5)) = .ok "5" := by
  rw [toPropertyKey_num]
  exact congrArg Except.ok (by decide)

theorem toPropertyKey_six : toPropertyKey (num (Number.ofNat 6)) = .ok "6" := by
  rw [toPropertyKey_num]
  exact congrArg Except.ok (by decide)

theorem toPropertyKey_str (s : String) : toPropertyKey (str s) = .ok s := by
  simp [toPropertyKey, toStr]

theorem toPropertyKey_undefined : toPropertyKey undefined = .ok "undefined" := by
  simp [toPropertyKey, toStr]

theorem toPropertyKey_keyless (v : Val) :
    toPropertyKey (obj [("toString", v)]) = .error .typeError := by
  simp [toPropertyKey, toStr, List.lookup]

/-! ## The book decoders -/

/-- C3: on an aggregated-book update row `[price, count, signedSize]` of
Numbers, `_onLevel2Update` emits one `Level2Update` with a single point, and
the size of that point is `"0.00000000"` when `count` is 0, whatever
`signedSize` is, and the 8-decimal rendering of `|signedSize|` otherwise. -/
theorem level2Update_zero_count_size (ch : Val) (price count size sq : Number)
    (market : Market) :
    ∃ point : Level2Point,
      _onLevel2Update (arr [ch, arr [num price, num count, num size], num sq]) market =
        .ok [Event.l2update {
          exchange := "Bitfinex", base := market.base, quote := market.quote, sequenceId := sq,
          asks := if size.isPos then [] else [point],
          bids := if size.isPos then [point] else [] } market] ∧
      point.size = (if count.isZero then "0.00000000" else size.abs.toFixed 8) :=
  ⟨⟨price.toFixed 8, if count.isZero then "0.00000000" else size.abs.toFixed 8, count.toFixed 0⟩,
    level2Update_row ch price count size sq market, rfl⟩

/-- C4: in the four book decoders the sign of `signedSize` alone selects the
side. A snapshot puts the points of the rows with `signedSize > 0`, in order,
in `bids` and the points of the other rows in `asks`; an update puts its one
point in `bids` when `signedSize > 0` and in `asks` otherwise; a negative
`signedSize` is not `> 0`, so it goes to `asks`. In every case the size of the
point is the rendering of `|signedSize|`, which is never negative, except that
the Level-2 update forces it to `"0.00000000"` when `count` is 0. -/
theorem book_side_by_sign (ch : Val) (sq : Number) (market : Market) :
    (∀ rows : List (Number × Number × Number),
      _onLevel2Snapshot
          (arr [ch, arr (rows.map (fun r => arr [num r.1, num r.2.1, num r.2.2])), num sq]) market =
        .ok [Event.l2snapshot {
          exchange := "Bitfinex", base := market.base, quote := market.quote, sequenceId := sq,
          bids := (rows.filter (fun r => r.2.2.isPos)).map
            (fun r => ⟨r.1.toFixed 8, r.2.2.abs.toFixed 8, r.2.1.toFixed 0⟩),
          asks := (rows.filter (fun r => !r.2.2.isPos)).map
            (fun r => ⟨r.1.toFixed 8, r.2.2.abs.toFixed 8, r.2.1.toFixed 0⟩) } market]) ∧
    (∀ price count size : Number,
      _onLevel2Update (arr [ch, arr [num price, num count, num size], num sq]) market =
        .ok [Event.l2update {
          exchange := "Bitfinex", base := market.base, quote := market.quote, sequenceId := sq,
          asks := if size.isPos then [] else
            [⟨price.toFixed 8, if count.isZero then "0.00000000" else size.abs.toFixed 8,
              count.toFixed 0⟩],
          bids := if size.isPos then
            [⟨price.toFixed 8, if count.isZero then "0.00000000" else size.abs.toFixed 8,
              count.toFixed 0⟩]
            else [] } market]) ∧
    (∀ rows : List (Number × Number × Number),
      _onLevel3Snapshot
          (arr [ch, arr (rows.map (fun r => arr [num r.1, num r.2.1, num r.2.2])), num sq]) market =
        .ok [Event.l3snapshot {
          exchange := "Bitfinex", base := market.base, quote := market.quote, sequenceId := sq,
          bids := (rows.filter (fun r => r.2.2.isPos)).map
            (fun r => ⟨str (r.1.toFixed 0), r.2.1.toFixed 8, r.2.2.abs.toFixed 8⟩),
          asks := (rows.filter (fun r => !r.2.2.isPos)).map
            (fun r => ⟨str (r.1.toFixed 0), r.2.1.toFixed 8, r.2.2.abs.toFixed 8⟩) } market]) ∧
    (∀ orderId price size : Number,
      _onLevel3Update (arr [ch, arr [num orderId, num price, num size], num sq]) market =
        .ok [Event.l3update {
          exchange := "Bitfinex", base := market.base, quote := market.quote, sequenceId := sq,
          asks := if size.isPos then [] else [⟨num orderId, price.toFixed 8, size.abs.toFixed 8⟩],
          bids := if size.isPos then [⟨num orderId, price.toFixed 8, size.abs.toFixed 8⟩]
            else [] } market]) ∧
    (∀ size : Number, (size.isNeg = true → size.isPos = false) ∧ size.abs.isNeg = false) :=
  ⟨fun rows => level2Snapshot_rows ch rows sq market,
    fun price count size => level2Update_row ch price count size sq market,
    fun rows => level3Snapshot_rows ch rows sq market,
    fun orderId price size => level3Update_row ch orderId price size sq market,
    fun size => ⟨isPos_false_of_isNeg size, abs_not_isNeg size⟩⟩

/-- Witness of C4: the size `-0.3` is negative, hence not positive, and its
absolute value is not negative. -/
theorem book_side_by_sign_witness :
    (Number.ofDecimal true 3 (-1)).isNeg = true ∧
      (Number.ofDecimal true 3 (-1)).isPos = false ∧
      (Number.ofDecimal true 3 (-1)).abs.isNeg = false :=
  ⟨by decide,
    ((book_side_by_sign (num (Number.ofNat 5)) (Number.ofNat 7) sampleMarket).2.2.2.2
      (Number.ofDecimal true 3 (-1))).1 (by decide),
    ((book_side_by_sign (num (Number.ofNat 5)) (Number.ofNat 7) sampleMarket).2.2.2.2
      (Number.ofDecimal true 3 (-1))).2⟩

/-- C5: on a list of aggregated-book rows `[price, count, signedSize]` of
Numbers, `_onLevel2Snapshot` emits exactly one `Level2Snapshot`; its bids are
the points of the rows with `signedSize > 0` in input order, its asks the
points of all the other rows in input order, the two together have as many
points as there are rows, and the point of a row is (price to 8 decimals,
`|signedSize|` to 8 decimals, count to 0 decimals). The rows
`[[100,1,0.5],[99,1,-0.3]]` give the bid `100.00000000 / 0.50000000 / 1` and
the ask `99.00000000 / 0.30000000 / 1`. -/
theorem level2Snapshot_partition (ch : Val) (sq : Number) (market : Market) :
    (∀ rows : List (Number × Number × Number),
      _onLevel2Snapshot
          (arr [ch, arr (rows.map (fun r => arr [num r.1, num r.2.1, num r.2.2])), num sq]) market =
        .ok [Event.l2snapshot {
          exchange := "Bitfinex", base := market.base, quote := market.quote, sequenceId := sq,
          bids := (rows.filter (fun r => r.2.2.isPos)).map
            (fun r => ⟨r.1.toFixed 8, r.2.2.abs.toFixed 8, r.2.1.toFixed 0⟩),
          asks := (rows.filter (fun r => !r.2.2.isPos)).map
            (fun r => ⟨r.1.toFixed 8, r.2.2.abs.toFixed 8, r.2.1.toFixed 0⟩) } market] ∧
      ((rows.filter (fun r => r.2.2.isPos)).map
          (fun r => (⟨r.1.toFixed 8, r.2.2.abs.toFixed 8, r.2.1.toFixed 0⟩ : Level2Point))).length +
        ((rows.filter (fun r => !r.2.2.isPos)).map
          (fun r => (⟨r.1.toFixed 8, r.2.2.abs.toFixed 8, r.2.1.toFixed 0⟩ : Level2Point))).length =
        rows.length) ∧
    _onLevel2Snapshot
        (arr [ch, arr [arr [num (Number.ofNat 100), num (Number.ofNat 1),
            num (Number.ofDecimal false 5 (-1))],
          arr [num (Number.ofNat 99), num (Number.ofNat 1),
            num (Number.ofDecimal true 3 (-1))]], num sq]) market =
      .ok [Event.l2snapshot {
        exchange := "Bitfinex", base := market.base, quote := market.quote, sequenceId := sq,
        bids := [⟨"100.00000000", "0.50000000", "1"⟩],
        asks := [⟨"99.00000000", "0.30000000", "1"⟩] } market] := by
  refine ⟨fun rows => ⟨level2Snapshot_rows ch rows sq market, ?_⟩, ?_⟩
  · simp only [List.length_map]
    induction rows with
    | nil => rfl
    | cons r rest ih =>
      cases h : r.2.2.isPos <;> simp [List.filter, h] <;> omega
  · have h := level2Snapshot_rows ch
      [(Number.ofNat 100, Number.ofNat 1, Number.ofDecimal false 5 (-1)),
       (Number.ofNat 99, Number.ofNat 1, Number.ofDecimal true 3 (-1))] sq market
    have e1 : (Number.ofNat 100).toFixed 8 = "100.00000000" := by decide
    have e2 : (Number.ofDecimal false 5 (-1)).abs.toFixed 8 = "0.50000000" := by decide
    have e3 : (Number.ofNat 1).toFixed 0 = "1" := by decide
    have e4 : (Number.ofNat 99).toFixed 8 = "99.00000000" := by decide
    have e5 : (Number.ofDecimal true 3 (-1)).abs.toFixed 8 = "0.30000000" := by decide
    have p1 : (Number.ofDecimal false 5 (-1)).isPos = true := by decide
    have p2 : (Number.ofDecimal true 3 (-1)).isPos = false := by decide
    refine h.trans ?_
    simp only [List.filter, p1, p2, Bool.not_true, Bool.not_false, List.map, e1, e2, e3, e4, e5]

/-! ## The ticker and trade decoders -/

/-- C6: on a ticker row `[bid, bidSize, ask, askSize, change, changePercent,
last, volume, high, low]` of Numbers, `_onTicker` emits exactly one `Ticker`
whose `open` is the 8-decimal rendering of `last + change`, whose
`changePercent` has 2 decimals and whose other numeric fields are the 8-decimal
renderings of the inputs at their positions; the row
`[100,1,102,1,2,1.5,101,500,105,99]` gives the `open` `"103.00000000"`. -/
theorem ticker_fields (now : Nat) (ch : Val) (rest : List Val) (market : Market) :
    (∀ bid bidSize ask askSize change changePercent last volume high low : Number,
      _onTicker now (arr (ch :: arr [num bid, num bidSize, num ask, num askSize, num change,
          num changePercent, num last, num volume, num high, num low] :: rest)) market =
        .ok [Event.ticker {
          exchange := "Bitfinex", base := market.base, quote := market.quote, timestamp := now,
          last := last.toFixed 8, open_ := (Number.add last change).toFixed 8,
          high := high.toFixed 8, low := low.toFixed 8, volume := volume.toFixed 8,
          change := change.toFixed 8, changePercent := changePercent.toFixed 2,
          bid := bid.toFixed 8, bidVolume := bidSize.toFixed 8,
          ask := ask.toFixed 8, askVolume := askSize.toFixed 8 } market]) ∧
    ∃ t : Ticker,
      _onTicker now (arr (ch :: arr [num (Number.ofNat 100), num (Number.ofNat 1),
          num (Number.ofNat 102), num (Number.ofNat 1), num (Number.ofNat 2),
          num (Number.ofDecimal false 15 (-1)), num (Number.ofNat 101), num (Number.ofNat 500),
          num (Number.ofNat 105), num (Number.ofNat 99)] :: rest)) market =
        .ok [Event.ticker t market] ∧
      t.open_ = "103.00000000" ∧ t.last = "101.00000000" ∧ t.changePercent = "1.50" := by
  refine ⟨fun bid bidSize ask askSize change changePercent last volume high low =>
    ticker_row now ch rest bid bidSize ask askSize change changePercent last volume high low market,
    _, ticker_row now ch rest _ _ _ _ _ _ _ _ _ _ market, ?_, ?_, ?_⟩
  · show ((Number.ofNat 101).add (Number.ofNat 2)).toFixed 8 = "103.00000000"
    decide
  · show (Number.ofNat 101).toFixed 8 = "101.00000000"
    decide
  · show (Number.ofDecimal false 15 (-1)).toFixed 2 = "1.50"
    decide

/-- C7: on a trade row `[tradeId, unixSeconds, signedAmount, price]` of Numbers,
`_onTradeMessage` emits exactly one `Trade` with side `buy` if
`signedAmount > 0` and `sell` otherwise, amount the 8-decimal rendering of
`|signedAmount|`, price the 8-decimal rendering of `price`, `unix` equal to
`unixSeconds * 1000` and `tradeId` the integer rendering of `tradeId`. The row
`[1,1609712228,0.005,33432]` gives a `buy` of `"0.00500000"` at
`"33432.00000000"` with `unix` 1609712228000, and the row with amount `-0.005`
gives a `sell` of `"0.00500000"`. -/
theorem trade_fields (ch tag : Val) (rest : List Val) (market : Market) :
    (∀ id unix amount price : Number,
      _onTradeMessage (arr (ch :: tag :: arr [num id, num unix, num amount, num price] :: rest))
          market =
        .ok [Event.trade {
          exchange := "Bitfinex", base := market.base, quote := market.quote,
          tradeId := id.toFixed 0, unix := num (Number.mul unix (Number.ofNat 1000)),
          side := if amount.isPos then "buy" else "sell",
          price := price.toFixed 8, amount := amount.abs.toFixed 8 } market]) ∧
    _onTradeMessage (arr (ch :: tag :: arr [num (Number.ofNat 1), num (Number.ofNat 1609712228),
        num (Number.ofDecimal false 5 (-3)), num (Number.ofNat 33432)] :: rest)) market =
      .ok [Event.trade {
        exchange := "Bitfinex", base := market.base, quote := market.quote,
        tradeId := "1", unix := num (Number.ofNat 1609712228000), side := "buy",
        price := "33432.00000000", amount := "0.00500000" } market] ∧
    _onTradeMessage (arr (ch :: tag :: arr [num (Number.ofNat 1), num (Number.ofNat 1609712228),
        num (Number.ofDecimal true 5 (-3)), num (Number.ofNat 33432)] :: rest)) market =
      .ok [Event.trade {
        exchange := "Bitfinex", base := market.base, quote := market.quote,
        tradeId := "1", unix := num (Number.ofNat 1609712228000), side := "sell",
        price := "33432.00000000", amount := "0.00500000" } market] := by
  have e1 : (Number.ofNat 1).toFixed 0 = "1" := by decide
  have e2 : Number.mul (Number.ofNat 1609712228) (Number.ofNat 1000) =
      Number.ofNat 1609712228000 := by
    set_option maxRecDepth 100000 in decide
  have e3 : (Number.ofNat 33432).toFixed 8 = "33432.00000000" := by decide
  have e4 : (Number.ofDecimal false 5 (-3)).abs.toFixed 8 = "0.00500000" := by decide
  have e5 : (Number.ofDecimal true 5 (-3)).abs.toFixed 8 = "0.00500000" := by decide
  have p1 : (Number.ofDecimal false 5 (-3)).isPos = true := by decide
  have p2 : (Number.ofDecimal true 5 (-3)).isPos = false := by decide
  refine ⟨fun id unix amount price => trade_row ch tag rest id unix amount price market, ?_, ?_⟩
  · have h := trade_row ch tag rest (Number.ofNat 1) (Number.ofNat 1609712228)
      (Number.ofDecimal false 5 (-3)) (Number.ofNat 33432) market
    rw [e1, e2, e3, e4, p1] at h
    exact h
  · have h := trade_row ch tag rest (Number.ofNat 1) (Number.ofNat 1609712228)
      (Number.ofDecimal true 5 (-3)) (Number.ofNat 33432) market
    rw [e1, e2, e3, e5, p2] at h
    exact h

/-! ## The raw-book update -/

/-- C8: on a raw-book update row `[orderId, price, signedSize]` of Numbers,
`_onLevel3Update` emits exactly one `Level3Update` with exactly one point, whose
size is the 8-decimal rendering of `|signedSize|` and nothing else: it is
`"0.00000000"` exactly when that rendering is, whatever the order id and the
price are (a zero there forces nothing). The row `[55,100,0]` gives the price
`"100.00000000"` and the size `"0.00000000"`. -/
theorem level3Update_size_unforced (ch : Val) (sq : Number) (market : Market) :
    (∀ orderId price size : Number, ∃ point : Level3Point,
      _onLevel3Update (arr [ch, arr [num orderId, num price, num size], num sq]) market =
        .ok [Event.l3update {
          exchange := "Bitfinex", base := market.base, quote := market.quote, sequenceId := sq,
          asks := if size.isPos then [] else [point],
          bids := if size.isPos then [point] else [] } market] ∧
      point.size = size.abs.toFixed 8 ∧
      (point.size = "0.00000000" ↔ size.abs.toFixed 8 = "0.00000000")) ∧
    ∃ point : Level3Point,
      _onLevel3Update (arr [ch, arr [num (Number.ofNat 55), num (Number.ofNat 100),
          num (Number.ofNat 0)], num sq]) market =
        .ok [Event.l3update {
          exchange := "Bitfinex", base := market.base, quote := market.quote, sequenceId := sq,
          asks := [point], bids := [] } market] ∧
      point.price = "100.00000000" ∧ point.size = "0.00000000" := by
  refine ⟨fun orderId price size =>
      ⟨⟨num orderId, price.toFixed 8, size.abs.toFixed 8⟩,
        level3Update_row ch orderId price size sq market, rfl, Iff.rfl⟩,
    ⟨num (Number.ofNat 55), (Number.ofNat 100).toFixed 8, (Number.ofNat 0).abs.toFixed 8⟩,
      level3Update_row ch (Number.ofNat 55) (Number.ofNat 100) (Number.ofNat 0) sq market,
      by decide, by decide⟩

/-- C9 at the row `[55,100,0.2]`: `_onLevel3Update` emits the point with the
order id as the Number 55, while `_onLevel3Snapshot` emits, for the snapshot of
that one row, the point with the order id as the string `"55"`; price, size and
side agree. -/
theorem level3Update_orderId_number :
    _onLevel3Update (arr [num (Number.ofNat 5), arr [num (Number.ofNat 55), num (Number.ofNat 100),
        num (Number.ofDecimal false 2 (-1))], num (Number.ofNat 7)]) sampleMarket =
      .ok [Event.l3update {
        exchange := "Bitfinex", base := sampleMarket.base, quote := sampleMarket.quote,
        sequenceId := Number.ofNat 7,
        asks := [],
        bids := [⟨num (Number.ofNat 55), "100.00000000", "0.20000000"⟩] } sampleMarket] ∧
    _onLevel3Snapshot (arr [num (Number.ofNat 5), arr [arr [num (Number.ofNat 55),
        num (Number.ofNat 100), num (Number.ofDecimal false 2 (-1))]], num (Number.ofNat 7)])
        sampleMarket =
      .ok [Event.l3snapshot {
        exchange := "Bitfinex", base := sampleMarket.base, quote := sampleMarket.quote,
        sequenceId := Number.ofNat 7,
        asks := [],
        bids := [⟨str "55", "100.00000000", "0.20000000"⟩] } sampleMarket] ∧
    num (Number.ofNat 55) ≠ str "55" := by
  have e1 : (Number.ofNat 55).toFixed 0 = "55" := by decide
  have e2 : (Number.ofNat 100).toFixed 8 = "100.00000000" := by decide
  have e3 : (Number.ofDecimal false 2 (-1)).abs.toFixed 8 = "0.20000000" := by decide
  have p1 : (Number.ofDecimal false 2 (-1)).isPos = true := by decide
  refine ⟨?_, ?_, fun h => Val.noConfusion h⟩
  · have h := level3Update_row (num (Number.ofNat 5)) (Number.ofNat 55) (Number.ofNat 100)
      (Number.ofDecimal false 2 (-1)) (Number.ofNat 7) sampleMarket
    rw [e2, e3, p1] at h
    exact h
  · have h := level3Snapshot_rows (num (Number.ofNat 5))
      [(Number.ofNat 55, Number.ofNat 100, Number.ofDecimal false 2 (-1))] (Number.ofNat 7)
      sampleMarket
    simp only [List.filter, p1, Bool.not_true, List.map, e1, e2, e3] at h
    exact h

/-! ## The search of a channel -/

/-- C10, amended: in a table whose bindings all carry a `chanId`,
`_findChannel(t, p)` returns a channel id (a value other than `undefined`) if
and only if the table holds, as an own property, a binding with the pair `p`
that matches `t` (`trades`: channel `trades`; `level2updates`: channel
`book`, `prec` not `"R0"`; `level3updates`: channel `book`, `prec` `"R0"`), and
an id it returns is the `chanId` of such a binding; otherwise it returns
`undefined`. It never throws. -/
theorem findChannel_selects (c : Client) (t p : String)
    (hwf : ∀ kv ∈ c._channels, isBinding kv.2 = true) :
    ∃ r, _findChannel c (str t) (str p) = .ok r ∧
      (r ≠ undefined ↔ ∃ kv ∈ c._channels, Selects t p kv.2) ∧
      (r ≠ undefined →
        ∃ kv ∈ c._channels, Selects t p kv.2 ∧ getField kv.2 "chanId" = .ok r) := by
  have hvs : ∀ v ∈ objectValues c._channels, isBinding v = true := by
    intro v hv
    obtain ⟨k, hk⟩ := (mem_objectValues _ _).mp hv
    exact hwf (k, v) hk
  obtain ⟨r, hr, hiff, hsel⟩ := findChannelLoop_spec t p _ hvs
  refine ⟨r, hr, ?_, ?_⟩
  · rw [hiff]
    constructor
    · rintro ⟨v, hv, hs⟩
      obtain ⟨k, hk⟩ := (mem_objectValues _ _).mp hv
      exact ⟨(k, v), hk, hs⟩
    · rintro ⟨⟨k, v⟩, hk, hs⟩
      exact ⟨v, (mem_objectValues _ _).mpr ⟨k, hk⟩, hs⟩
  · intro hne
    obtain ⟨v, hv, hs, hc⟩ := hsel hne
    obtain ⟨k, hk⟩ := (mem_objectValues _ _).mp hv
    exact ⟨(k, v), hk, hs, hc⟩

/-- Witness of C10: the table that binds channel 5 to the raw book of `BTCUSD`,
searched for the `level3updates` of that pair. -/
theorem findChannel_selects_witness :
    (∀ kv ∈ sampleBound._channels, isBinding kv.2 = true) ∧
      ∃ r, _findChannel sampleBound (str "level3updates") (str "BTCUSD") = .ok r ∧
        (r ≠ undefined ↔ ∃ kv ∈ sampleBound._channels, Selects "level3updates" "BTCUSD" kv.2) ∧
        (r ≠ undefined →
          ∃ kv ∈ sampleBound._channels,
            Selects "level3updates" "BTCUSD" kv.2 ∧ getField kv.2 "chanId" = .ok r) :=
  ⟨fun kv h => by
      have hkv : kv = ("5", sampleAck) := by simpa [sampleBound] using h
      subst hkv
      rfl,
    findChannel_selects sampleBound "level3updates" "BTCUSD" (fun kv h => by
      have hkv : kv = ("5", sampleAck) := by simpa [sampleBound] using h
      subst hkv
      rfl)⟩

/-! ## Lemmas: what a decoder that returns has emitted -/

theorem bind_eq_ok {α β : Type} (x : Except Err α) (f : α → Except Err β) (b : β) :
    (x >>= f) = .ok b ↔ ∃ a, x = .ok a ∧ f a = .ok b := by
  cases x with
  | error e => simp [bind, Except.bind]
  | ok a => simp [bind, Except.bind]

theorem onTicker_ok (now : Nat) (msg : Val) (market : Market) (evs : List Event)
    (h : _onTicker now msg market = .ok evs) : ∃ t, evs = [Event.ticker t market] := by
  simp only [_onTicker, bind_eq_ok, pure, Except.pure] at h
  obtain ⟨_, _, _, _, _, _, _, _, _, _, _, _, _, _, _, _, _, _, _, _, _, _, _, _, _, _, _, _, h⟩ := h
  injection h with h
  exact ⟨_, h.symm⟩

theorem onTradeMessage_ok (msg : Val) (market : Market) (evs : List Event)
    (h : _onTradeMessage msg market = .ok evs) : ∃ t, evs = [Event.trade t market] := by
  simp only [_onTradeMessage, bind_eq_ok, pure, Except.pure] at h
  obtain ⟨_, _, _, _, _, _, _, _, _, _, _, _, _, _, h⟩ := h
  injection h with h
  exact ⟨_, h.symm⟩

theorem onLevel2Snapshot_ok (msg : Val) (market : Market) (evs : List Event)
    (h : _onLevel2Snapshot msg market = .ok evs) :
    ∃ s v, getIndex msg 2 = .ok v ∧ unaryPlus v = .ok s.sequenceId ∧
      evs = [Event.l2snapshot s market] := by
  simp only [_onLevel2Snapshot, bind_eq_ok, pure, Except.pure] at h
  obtain ⟨v, hv, sq, hsq, _, _, _, _, _, _, h⟩ := h
  injection h with h
  exact ⟨_, v, hv, hsq, h.symm⟩

theorem onLevel3Snapshot_ok (msg : Val) (market : Market) (evs : List Event)
    (h : _onLevel3Snapshot msg market = .ok evs) :
    ∃ s v, getIndex msg 2 = .ok v ∧ unaryPlus v = .ok s.sequenceId ∧
      evs = [Event.l3snapshot s market] := by
  simp only [_onLevel3Snapshot, bind_eq_ok, pure, Except.pure] at h
  obtain ⟨_, _, v, hv, sq, hsq, _, _, _, _, h⟩ := h
  injection h with h
  exact ⟨_, v, hv, hsq, h.symm⟩

theorem onLevel2Update_ok (msg : Val) (market : Market) (evs : List Event)
    (h : _onLevel2Update msg market = .ok evs) :
    evs = [] ∨ ∃ u v, getIndex msg 2 = .ok v ∧ unaryPlus v = .ok u.sequenceId ∧
      u.bids.length + u.asks.length = 1 ∧ evs = [Event.l2update u market] := by
  simp only [_onLevel2Update, bind_eq_ok, pure, Except.pure] at h
  obtain ⟨_, _, _, _, v, hv, sq, hsq, b, _, h⟩ := h
  cases b with
  | false =>
    left
    simp at h
    exact h
  | true =>
    right
    simp only [Bool.not_true, Bool.false_eq_true, if_false, bind_eq_ok] at h
    obtain ⟨_, _, _, _, _, _, _, _, isBid, _, h⟩ := h
    injection h with h
    refine ⟨_, v, hv, hsq, ?_, h.symm⟩
    cases isBid <;> simp

theorem onLevel3Update_ok (msg : Val) (market : Market) (evs : List Event)
    (h : _onLevel3Update msg market = .ok evs) :
    ∃ u v, getIndex msg 2 = .ok v ∧ unaryPlus v = .ok u.sequenceId ∧
      u.bids.length + u.asks.length = 1 ∧ evs = [Event.l3update u market] := by
  simp only [_onLevel3Update, bind_eq_ok, pure, Except.pure] at h
  obtain ⟨_, _, _, _, v, hv, sq, hsq, _, _, _, _, isBid, _, h⟩ := h
  injection h with h
  refine ⟨_, v, hv, hsq, ?_, h.symm⟩
  cases isBid <;> simp

/-! ## Lemmas: what `_onMessage` has done when it returns -/

theorem ret_inv (c c' : Client) (d : Except Err (List Event)) (evs : List Event)
    (h : (d >>= fun r => Except.ok (c, r)) = Except.ok (c', evs)) : c' = c ∧ d = .ok evs := by
  rw [bind_eq_ok] at h
  obtain ⟨r, hr, h⟩ := h
  injection h with h
  injection h with h1 h2
  exact ⟨h1.symm, by rw [hr, h2]⟩

theorem nil_inv (c c' : Client) (evs : List Event)
    (h : (Except.ok (c, []) : Except Err (Client × List Event)) = Except.ok (c', evs)) :
    c' = c ∧ evs = [] := by
  injection h with h
  injection h with h1 h2
  exact ⟨h1.symm, h2.symm⟩

theorem onMessage_ok_inv (c : Client) (now : Nat) (msg : Val) (c' : Client) (evs : List Event)
    (h : _onMessage c now msg = .ok (c', evs)) :
    (∃ id key, getField msg "event" = .ok (str "subscribed") ∧ getField msg "chanId" = .ok id ∧
        toPropertyKey id = .ok key ∧
        c' = tableSet c key msg ∧ evs = []) ∨
    (getField msg "event" ≠ .ok (str "subscribed") ∧ c' = c ∧
      (evs = [] ∨ ∃ first key market,
        getIndex msg 0 = .ok first ∧ toPropertyKey first = .ok key ∧
        ((getField (tableGet c key) "channel" = .ok (str "ticker") ∧
            _onTicker now msg market = .ok evs) ∨
         (getField (tableGet c key) "channel" = .ok (str "trades") ∧
            getIndex msg 1 = .ok (str "tu") ∧ _onTradeMessage msg market = .ok evs) ∨
         (getField (tableGet c key) "channel" = .ok (str "book") ∧
            getField (tableGet c key) "prec" = .ok (str "R0") ∧
            (_onLevel3Snapshot msg market = .ok evs ∨ _onLevel3Update msg market = .ok evs)) ∨
         (getField (tableGet c key) "channel" = .ok (str "book") ∧
            getField (tableGet c key) "prec" ≠ .ok (str "R0") ∧
            (_onLevel2Snapshot msg market = .ok evs ∨ _onLevel2Update msg market = .ok evs))))) := by
  simp only [_onMessage, bind_eq_ok, pure, Except.pure] at h
  obtain ⟨ev, hev, h⟩ := h
  cases hs : strictEq ev (str "subscribed") with
  | true =>
    left
    simp only [hs, if_true, bind_eq_ok] at h
    obtain ⟨id, hid, key, hkey, h⟩ := h
    injection h with h
    injection h with h1 h2
    rw [(strictEq_str_iff _ _).mp hs] at hev
    exact ⟨id, key, hev, hid, hkey, h1.symm, h2.symm⟩
  | false =>
    right
    have hne : getField msg "event" ≠ .ok (str "subscribed") := by
      rw [hev]
      intro hh
      injection hh with hh
      rw [hh, strictEq_str_true] at hs
      exact Bool.noConfusion hs
    refine ⟨hne, ?_⟩
    simp only [hs, Bool.false_eq_true, if_false, bind_eq_ok] at h
    obtain ⟨_, _, first, hfirst, key, hkey, h⟩ := h
    split at h
    · exact ⟨(nil_inv _ _ _ h).1, Or.inl (nil_inv _ _ _ h).2⟩
    simp only [bind_eq_ok] at h
    obtain ⟨_, _, tag, htag, h⟩ := h
    split at h
    · exact ⟨(nil_inv _ _ _ h).1, Or.inl (nil_inv _ _ _ h).2⟩
    simp only [bind_eq_ok] at h
    obtain ⟨_, _, ch, hch, h⟩ := h
    split at h
    · -- ticker
      rename_i hticker
      rw [(strictEq_str_iff _ _).mp hticker] at hch
      simp only [bind_eq_ok] at h
      obtain ⟨pair, _, h⟩ := h
      split at h
      · exact ⟨(nil_inv _ _ _ h).1, Or.inl (nil_inv _ _ _ h).2⟩
      · rename_i market _
        exact ⟨(ret_inv _ _ _ _ h).1, Or.inr ⟨first, key, market, hfirst, hkey,
          Or.inl ⟨hch, (ret_inv _ _ _ _ h).2⟩⟩⟩
    simp only [bind_eq_ok] at h
    obtain ⟨_, _, ch2, hch2, tag2, htag2, h⟩ := h
    split at h
    · -- trades
      rename_i htrades
      simp only [Bool.and_eq_true] at htrades
      rw [(strictEq_str_iff _ _).mp htrades.1] at hch2
      rw [(strictEq_str_iff _ _).mp htrades.2] at htag2
      simp only [bind_eq_ok] at h
      obtain ⟨pair, _, h⟩ := h
      split at h
      · exact ⟨(nil_inv _ _ _ h).1, Or.inl (nil_inv _ _ _ h).2⟩
      · rename_i market _
        exact ⟨(ret_inv _ _ _ _ h).1, Or.inr ⟨first, key, market, hfirst, hkey,
          Or.inr (Or.inl ⟨hch2, htag2, (ret_inv _ _ _ _ h).2⟩)⟩⟩
    simp only [bind_eq_ok] at h
    obtain ⟨_, _, ch3, hch3, prec, hprec, h⟩ := h
    split at h
    · -- level3
      rename_i hl3
      simp only [Bool.and_eq_true] at hl3
      rw [(strictEq_str_iff _ _).mp hl3.1] at hch3
      rw [(strictEq_str_iff _ _).mp hl3.2] at hprec
      simp only [bind_eq_ok] at h
      obtain ⟨pair, _, h⟩ := h
      split at h
      · exact ⟨(nil_inv _ _ _ h).1, Or.inl (nil_inv _ _ _ h).2⟩
      · rename_i market _
        simp only [bind_eq_ok] at h
        obtain ⟨_, _, _, _, h⟩ := h
        split at h
        · exact ⟨(ret_inv _ _ _ _ h).1, Or.inr ⟨first, key, market, hfirst, hkey,
            Or.inr (Or.inr (Or.inl ⟨hch3, hprec, Or.inl (ret_inv _ _ _ _ h).2⟩))⟩⟩
        · exact ⟨(ret_inv _ _ _ _ h).1, Or.inr ⟨first, key, market, hfirst, hkey,
            Or.inr (Or.inr (Or.inl ⟨hch3, hprec, Or.inr (ret_inv _ _ _ _ h).2⟩))⟩⟩
    rename_i hnl3
    simp only [bind_eq_ok] at h
    obtain ⟨_, _, ch4, hch4, h⟩ := h
    split at h
    · -- level2
      rename_i hl2
      have hch4' := hch4
      rw [(strictEq_str_iff _ _).mp hl2] at hch4'
      have hprec' : getField (tableGet c key) "prec" ≠ .ok (str "R0") := by
        intro hp
        rw [hp] at hprec
        injection hprec with hprec
        rw [hch4'] at hch3
        injection hch3 with hch3
        apply hnl3
        rw [← hch3, ← hprec]
        simp [strictEq]
      simp only [bind_eq_ok] at h
      obtain ⟨pair, _, h⟩ := h
      split at h
      · exact ⟨(nil_inv _ _ _ h).1, Or.inl (nil_inv _ _ _ h).2⟩
      · rename_i market _
        simp only [bind_eq_ok] at h
        obtain ⟨_, _, _, _, h⟩ := h
        split at h
        · exact ⟨(ret_inv _ _ _ _ h).1, Or.inr ⟨first, key, market, hfirst, hkey,
            Or.inr (Or.inr (Or.inr ⟨hch4', hprec', Or.inl (ret_inv _ _ _ _ h).2⟩))⟩⟩
        · exact ⟨(ret_inv _ _ _ _ h).1, Or.inr ⟨first, key, market, hfirst, hkey,
            Or.inr (Or.inr (Or.inr ⟨hch4', hprec', Or.inr (ret_inv _ _ _ _ h).2⟩))⟩⟩
    · simp only [bind_eq_ok] at h
      obtain ⟨_, _, h⟩ := h
      exact ⟨(nil_inv _ _ _ h).1, Or.inl (nil_inv _ _ _ h).2⟩

/-! ## Lemmas: frames that `_onMessage` drops -/

theorem getIndex_total (msg a : Val) (i j : Nat) (h : getIndex msg i = .ok a) :
    ∃ t, getIndex msg j = .ok t := by
  cases msg <;> simp [getIndex] at h ⊢

theorem getField_obj (kvs : List (String × Val)) (k : String) :
    getField (obj kvs) k = .ok (ownProp kvs k) := rfl

theorem strictEq_trades_ticker : strictEq (str "trades") (str "ticker") = false := by
  rw [strictEq_str_str]; decide

theorem strictEq_trades_book : strictEq (str "trades") (str "book") = false := by
  rw [strictEq_str_str]; decide

theorem strictEq_book_ticker : strictEq (str "book") (str "ticker") = false := by
  rw [strictEq_str_str]; decide

theorem strictEq_book_trades : strictEq (str "book") (str "trades") = false := by
  rw [strictEq_str_str]; decide

theorem strictEq_ticker_trades : strictEq (str "ticker") (str "trades") = false := by
  rw [strictEq_str_str]; decide

theorem strictEq_ticker_book : strictEq (str "ticker") (str "book") = false := by
  rw [strictEq_str_str]; decide

theorem onMessage_heartbeat (c : Client) (now : Nat) (msg ev first : Val) (key : String)
    (hev : getField msg "event" = .ok ev) (hsub : strictEq ev (str "subscribed") = false)
    (hfirst : getIndex msg 0 = .ok first) (hkey : toPropertyKey first = .ok key)
    (htag : getIndex msg 1 = .ok (str "hb")) :
    _onMessage c now msg = .ok (c, []) := by
  cases hb : truthy (tableGet c key) <;>
    simp [_onMessage, hev, hsub, hfirst, hkey, hb, htag, strictEq_str_true,
      bind, Except.bind, pure, Except.pure]

theorem onMessage_trades_other (c : Client) (now : Nat) (msg ev first tag : Val) (key : String)
    (kvs : List (String × Val))
    (hev : getField msg "event" = .ok ev) (hsub : strictEq ev (str "subscribed") = false)
    (hfirst : getIndex msg 0 = .ok first) (hkey : toPropertyKey first = .ok key)
    (hbound : tableGet c key = obj kvs)
    (hchan : ownProp kvs "channel" = str "trades")
    (htag : getIndex msg 1 = .ok tag) (hntu : strictEq tag (str "tu") = false) :
    _onMessage c now msg = .ok (c, []) := by
  cases hhb : strictEq tag (str "hb") <;>
    simp [_onMessage, hev, hsub, hfirst, hkey, hbound, htag, hhb, hntu, hchan, truthy, getField_obj,
      strictEq_trades_ticker, strictEq_trades_book, bind, Except.bind, pure, Except.pure]

theorem onMessage_unsubscribed (c : Client) (now : Nat) (msg ev first : Val) (key : String)
    (kvs : List (String × Val))
    (hev : getField msg "event" = .ok ev) (hsub : strictEq ev (str "subscribed") = false)
    (hfirst : getIndex msg 0 = .ok first) (hkey : toPropertyKey first = .ok key)
    (hbound : tableGet c key = obj kvs)
    (hticker : ownProp kvs "channel" = str "ticker" → c._tickerSubs (ownProp kvs "pair") = none)
    (htrades : ownProp kvs "channel" = str "trades" → c._tradeSubs (ownProp kvs "pair") = none)
    (hl3 : ownProp kvs "channel" = str "book" → ownProp kvs "prec" = str "R0" →
      c._level3UpdateSubs (ownProp kvs "pair") = none)
    (hl2 : ownProp kvs "channel" = str "book" → ownProp kvs "prec" ≠ str "R0" →
      c._level2UpdateSubs (ownProp kvs "pair") = none) :
    _onMessage c now msg = .ok (c, []) := by
  obtain ⟨tag, htag⟩ := getIndex_total msg first 0 1 hfirst
  cases hhb : strictEq tag (str "hb")
  · by_cases h1 : ownProp kvs "channel" = str "ticker"
    · simp [_onMessage, hev, hsub, hfirst, hkey, hbound, htag, hhb, truthy, getField_obj, h1,
        hticker h1, strictEq_str_true, bind, Except.bind, pure, Except.pure]
    · by_cases h2 : ownProp kvs "channel" = str "trades"
      · cases htu : strictEq tag (str "tu") <;>
          simp [_onMessage, hev, hsub, hfirst, hkey, hbound, htag, hhb, truthy, getField_obj, h2,
            htrades h2, htu, strictEq_str_true, strictEq_trades_ticker, strictEq_trades_book,
            bind, Except.bind, pure, Except.pure]
      · by_cases h3 : ownProp kvs "channel" = str "book"
        · by_cases h4 : ownProp kvs "prec" = str "R0"
          · simp [_onMessage, hev, hsub, hfirst, hkey, hbound, htag, hhb, truthy, getField_obj, h3,
              h4, hl3 h3 h4, strictEq_str_true, strictEq_book_ticker, strictEq_book_trades,
              bind, Except.bind, pure, Except.pure]
          · simp [_onMessage, hev, hsub, hfirst, hkey, hbound, htag, hhb, truthy, getField_obj, h3,
              strictEq_str_false _ _ h4, hl2 h3 h4, strictEq_str_true, strictEq_book_ticker,
              strictEq_book_trades, bind, Except.bind, pure, Except.pure]
        · simp [_onMessage, hev, hsub, hfirst, hkey, hbound, htag, hhb, truthy, getField_obj,
            strictEq_str_false _ _ h1, strictEq_str_false _ _ h2, strictEq_str_false _ _ h3,
            bind, Except.bind, pure, Except.pure]
  · simp [_onMessage, hev, hsub, hfirst, hkey, hbound, htag, hhb, truthy,
      bind, Except.bind, pure, Except.pure]

/-! ## Lemmas: the events of one frame -/

theorem onMessage_kinds (c : Client) (now : Nat) (msg first : Val) (key : String) (c' : Client)
    (evs : List Event)
    (hfirst : getIndex msg 0 = .ok first) (hkey : toPropertyKey first = .ok key)
    (h : _onMessage c now msg = .ok (c', evs)) :
    evs = [] ∨ ∃ e, evs = [e] ∧
      ((getField (tableGet c key) "channel" = .ok (str "ticker") ∧ e.name = "ticker") ∨
       (getField (tableGet c key) "channel" = .ok (str "trades") ∧
          getIndex msg 1 = .ok (str "tu") ∧ e.name = "trade") ∨
       (getField (tableGet c key) "channel" = .ok (str "book") ∧
          getField (tableGet c key) "prec" = .ok (str "R0") ∧
          (e.name = "l3snapshot" ∨ e.name = "l3update")) ∨
       (getField (tableGet c key) "channel" = .ok (str "book") ∧
          getField (tableGet c key) "prec" ≠ .ok (str "R0") ∧
          (e.name = "l2snapshot" ∨ e.name = "l2update"))) := by
  rcases onMessage_ok_inv c now msg c' evs h with ⟨_, _, _, _, _, _, hnil⟩ | ⟨_, _, hnil | hd⟩
  · exact Or.inl hnil
  · exact Or.inl hnil
  · obtain ⟨first', key', market, hfirst', hkey', hd⟩ := hd
    rw [hfirst] at hfirst'
    injection hfirst' with hfirst'
    subst hfirst'
    rw [hkey] at hkey'
    injection hkey' with hkey'
    subst hkey'
    rcases hd with ⟨hc, hd⟩ | ⟨hc, htu, hd⟩ | ⟨hc, hp, hd | hd⟩ | ⟨hc, hp, hd | hd⟩
    · obtain ⟨t, rfl⟩ := onTicker_ok _ _ _ _ hd
      exact Or.inr ⟨_, rfl, Or.inl ⟨hc, rfl⟩⟩
    · obtain ⟨t, rfl⟩ := onTradeMessage_ok _ _ _ hd
      exact Or.inr ⟨_, rfl, Or.inr (Or.inl ⟨hc, htu, rfl⟩)⟩
    · obtain ⟨s, _, _, _, rfl⟩ := onLevel3Snapshot_ok _ _ _ hd
      exact Or.inr ⟨_, rfl, Or.inr (Or.inr (Or.inl ⟨hc, hp, Or.inl rfl⟩))⟩
    · obtain ⟨u, _, _, _, _, rfl⟩ := onLevel3Update_ok _ _ _ hd
      exact Or.inr ⟨_, rfl, Or.inr (Or.inr (Or.inl ⟨hc, hp, Or.inr rfl⟩))⟩
    · obtain ⟨s, _, _, _, rfl⟩ := onLevel2Snapshot_ok _ _ _ hd
      exact Or.inr ⟨_, rfl, Or.inr (Or.inr (Or.inr ⟨hc, hp, Or.inl rfl⟩))⟩
    · rcases onLevel2Update_ok _ _ _ hd with hnil | ⟨u, _, _, _, _, rfl⟩
      · exact Or.inl hnil
      · exact Or.inr ⟨_, rfl, Or.inr (Or.inr (Or.inr ⟨hc, hp, Or.inr rfl⟩))⟩

theorem onMessage_length (c : Client) (now : Nat) (msg : Val) (c' : Client) (evs : List Event)
    (h : _onMessage c now msg = .ok (c', evs)) : evs.length ≤ 1 := by
  rcases onMessage_ok_inv c now msg c' evs h with ⟨_, _, _, _, _, _, hnil⟩ | ⟨_, _, hnil | hd⟩
  · simp [hnil]
  · simp [hnil]
  · obtain ⟨first, key, market, hfirst, hkey, _⟩ := hd
    rcases onMessage_kinds c now msg first key c' evs hfirst hkey h with hnil | ⟨e, he, _⟩
    · simp [hnil]
    · simp [he]

theorem err_cases (α : Type) (x : Except Err α) : (∃ r, x = .ok r) ∨ x = .error .typeError := by
  cases x with
  | ok r => exact Or.inl ⟨r, rfl⟩
  | error e => cases e; exact Or.inr rfl

theorem str_ne_of_ne (a b : String) (h : a ≠ b) :
    (Except.ok (str a) : Except Err Val) ≠ .ok (str b) := by
  intro hh
  injection hh with hh
  injection hh with hh
  exact h hh

theorem str_ne (a b : String) (h : a ≠ b) : str a ≠ str b := by
  intro hh
  injection hh with hh
  exact h hh

/-! ## Lemmas: frames that `_onMessage` hands to a decoder -/

theorem onMessage_ticker (c : Client) (now : Nat) (msg ev first tag : Val) (key : String)
    (kvs : List (String × Val)) (market : Market)
    (hev : getField msg "event" = .ok ev) (hsub : strictEq ev (str "subscribed") = false)
    (hfirst : getIndex msg 0 = .ok first) (hkey : toPropertyKey first = .ok key)
    (hbound : tableGet c key = obj kvs)
    (hchan : ownProp kvs "channel" = str "ticker")
    (htag : getIndex msg 1 = .ok tag) (hnhb : strictEq tag (str "hb") = false)
    (hmarket : c._tickerSubs (ownProp kvs "pair") = some market) :
    _onMessage c now msg = (_onTicker now msg market).map (fun evs => (c, evs)) := by
  simp only [_onMessage, hev, hsub, hfirst, hkey, hbound, htag, hnhb, truthy, getField_obj, hchan,
    hmarket, strictEq_str_true, bind, Except.bind, pure, Except.pure, Except.map]
  cases _onTicker now msg market <;> simp

theorem onMessage_trades (c : Client) (now : Nat) (msg ev first : Val) (key : String)
    (kvs : List (String × Val)) (market : Market)
    (hev : getField msg "event" = .ok ev) (hsub : strictEq ev (str "subscribed") = false)
    (hfirst : getIndex msg 0 = .ok first) (hkey : toPropertyKey first = .ok key)
    (hbound : tableGet c key = obj kvs)
    (hchan : ownProp kvs "channel" = str "trades")
    (htag : getIndex msg 1 = .ok (str "tu"))
    (hmarket : c._tradeSubs (ownProp kvs "pair") = some market) :
    _onMessage c now msg = (_onTradeMessage msg market).map (fun evs => (c, evs)) := by
  have hnhb : strictEq (str "tu") (str "hb") = false := by rw [strictEq_str_str]; decide
  simp only [_onMessage, hev, hsub, hfirst, hkey, hbound, htag, hnhb, truthy, getField_obj, hchan,
    hmarket, strictEq_str_true, strictEq_trades_ticker, bind, Except.bind, pure, Except.pure,
    Except.map]
  cases _onTradeMessage msg market <;> simp

theorem onMessage_level3 (c : Client) (now : Nat) (msg ev first tag : Val) (key : String)
    (kvs : List (String × Val)) (market : Market)
    (hev : getField msg "event" = .ok ev) (hsub : strictEq ev (str "subscribed") = false)
    (hfirst : getIndex msg 0 = .ok first) (hkey : toPropertyKey first = .ok key)
    (hbound : tableGet c key = obj kvs)
    (hchan : ownProp kvs "channel" = str "book") (hprec : ownProp kvs "prec" = str "R0")
    (htag : getIndex msg 1 = .ok tag) (hnhb : strictEq tag (str "hb") = false)
    (hmarket : c._level3UpdateSubs (ownProp kvs "pair") = some market) :
    _onMessage c now msg =
      (getIndex tag 0).bind (fun x =>
        ((if isArray x then _onLevel3Snapshot msg market else _onLevel3Update msg market).map
          (fun evs => (c, evs)))) := by
  simp only [_onMessage, hev, hsub, hfirst, hkey, hbound, htag, hnhb, truthy, getField_obj, hchan,
    hprec, hmarket, strictEq_str_true, strictEq_book_ticker, strictEq_book_trades, bind,
    Except.bind, pure, Except.pure, Except.map]
  cases getIndex tag 0 with
  | error e => simp
  | ok x =>
    cases hx : isArray x
    · cases _onLevel3Update msg market <;> simp [hx]
    · cases _onLevel3Snapshot msg market <;> simp [hx]

theorem onMessage_level2 (c : Client) (now : Nat) (msg ev first tag : Val) (key : String)
    (kvs : List (String × Val)) (market : Market)
    (hev : getField msg "event" = .ok ev) (hsub : strictEq ev (str "subscribed") = false)
    (hfirst : getIndex msg 0 = .ok first) (hkey : toPropertyKey first = .ok key)
    (hbound : tableGet c key = obj kvs)
    (hchan : ownProp kvs "channel" = str "book") (hprec : ownProp kvs "prec" ≠ str "R0")
    (htag : getIndex msg 1 = .ok tag) (hnhb : strictEq tag (str "hb") = false)
    (hmarket : c._level2UpdateSubs (ownProp kvs "pair") = some market) :
    _onMessage c now msg =
      (getIndex tag 0).bind (fun x =>
        ((if isArray x then _onLevel2Snapshot msg market else _onLevel2Update msg market).map
          (fun evs => (c, evs)))) := by
  simp only [_onMessage, hev, hsub, hfirst, hkey, hbound, htag, hnhb, truthy, getField_obj, hchan,
    strictEq_str_false _ _ hprec, hmarket, strictEq_str_true, strictEq_book_ticker,
    strictEq_book_trades, bind, Except.bind, pure, Except.pure, Except.map]
  cases getIndex tag 0 with
  | error e => simp
  | ok x =>
    cases hx : isArray x
    · cases _onLevel2Update msg market <;> simp [hx]
    · cases _onLevel2Snapshot msg market <;> simp [hx]

/-! ## Lemmas: the keys and bindings of the sample table -/

theorem toPropertyKey_one : toPropertyKey (num (Number.ofNat 1)) = .ok "1" := by
  rw [toPropertyKey_num]
  exact congrArg Except.ok (by decide)

theorem toPropertyKey_two : toPropertyKey (num (Number.ofNat 2)) = .ok "2" := by
  rw [toPropertyKey_num]
  exact congrArg Except.ok (by decide)

theorem toPropertyKey_three : toPropertyKey (num (Number.ofNat 3)) = .ok "3" := by
  rw [toPropertyKey_num]
  exact congrArg Except.ok (by decide)

theorem sampleFull_one : tableGet sampleFull "1" = sampleTickerAck := rfl

theorem sampleFull_two : tableGet sampleFull "2" = sampleTradesAck := rfl

theorem sampleFull_three : tableGet sampleFull "3" = sampleBookAck := rfl

theorem sampleFull_five : tableGet sampleFull "5" = sampleAck := rfl

/-! ## Lemmas: payloads that make a decoder throw or return early -/

theorem level2Update_no_price (ch seq : Val) (rest : List Val) (market : Market) :
    _onLevel2Update (arr [ch, arr [], seq]) market = .error .typeError ∧
    _onLevel2Update (arr [ch, arr (null :: rest), seq]) market = .error .typeError := by
  constructor
  · cases h : unaryPlus seq <;>
      simp [_onLevel2Update, getIndex, iterate, nth, hasToFixed, h, bind, Except.bind]
  · cases h : unaryPlus seq <;>
      simp [_onLevel2Update, getIndex, iterate, nth, hasToFixed, h, bind, Except.bind]

theorem level2Update_price_not_number (ch : Val) (s : String) (xs rest : List Val) (sq : Number)
    (market : Market) :
    _onLevel2Update (arr [ch, arr (str s :: rest), num sq]) market = .ok [] ∧
    _onLevel2Update (arr [ch, arr (arr xs :: rest), num sq]) market = .ok [] := by
  constructor <;>
    simp [_onLevel2Update, getIndex, iterate, nth, hasToFixed, unaryPlus, toNumber, bind,
      Except.bind, pure, Except.pure]

theorem level3Update_no_price (ch seq : Val) (market : Market) :
    _onLevel3Update (arr [ch, arr [], seq]) market = .error .typeError := by
  cases h : unaryPlus seq <;>
    simp [_onLevel3Update, getIndex, iterate, nth, Val.toFixed, h, bind, Except.bind]

theorem onTicker_short_row (now : Nat) (ch : Val) (rest : List Val) (market : Market) :
    _onTicker now (arr (ch :: arr [] :: rest)) market = .error .typeError := by
  simp [_onTicker, getIndex, iterate, nth, plus, toPrimitive, toNumber, Val.toFixed, bind,
    Except.bind, pure, Except.pure]

/-! ## Lemmas: the table along a sequence of frames -/

theorem lookup_tableSet_isSome (c : Client) (k k' : String) (v : Val)
    (h : (c._channels.lookup k').isSome = true) :
    ((tableSet c k v)._channels.lookup k').isSome = true := by
  have hown : ((ownSet c._channels k v).lookup k').isSome = true := by
    rw [lookup_ownSet]
    by_cases hkk : k' = k
    · simp [hkk]
    · simp [hkk, h]
  unfold tableSet
  split
  · exact hown
  · split
    · split
      · exact h
      · exact h
    · exact hown

theorem lookup_tableSet_other (c : Client) (k k' : String) (v : Val) (hne : k' ≠ k) :
    (tableSet c k v)._channels.lookup k' = c._channels.lookup k' := by
  have hown : (ownSet c._channels k v).lookup k' = c._channels.lookup k' := by
    rw [lookup_ownSet, if_neg hne]
  unfold tableSet
  split
  · exact hown
  · split
    · split <;> rfl
    · exact hown

theorem onMessage_subscribed (c : Client) (now : Nat) (msg ev id : Val) (key : String)
    (hev : getField msg "event" = .ok ev) (hsub : strictEq ev (str "subscribed") = true)
    (hid : getField msg "chanId" = .ok id) (hkey : toPropertyKey id = .ok key) :
    _onMessage c now msg = .ok (tableSet c key msg, []) := by
  simp [_onMessage, hev, hsub, hid, hkey, bind, Except.bind, pure, Except.pure]

theorem onMessage_table (c : Client) (now : Nat) (msg : Val) (c' : Client) (evs : List Event)
    (h : _onMessage c now msg = .ok (c', evs)) :
    c' = c ∨ ∃ id key, getField msg "event" = .ok (str "subscribed") ∧
      getField msg "chanId" = .ok id ∧ toPropertyKey id = .ok key ∧
      c' = tableSet c key msg := by
  rcases onMessage_ok_inv c now msg c' evs h with ⟨id, key, he, hid, hkey, hc, _⟩ | ⟨_, hc, _⟩
  · exact Or.inr ⟨id, key, he, hid, hkey, hc⟩
  · exact Or.inl hc

theorem onMessage_subscribed_keyless (c : Client) (now : Nat) (msg ev id : Val)
    (hev : getField msg "event" = .ok ev) (hsub : strictEq ev (str "subscribed") = true)
    (hid : getField msg "chanId" = .ok id) (hkey : toPropertyKey id = .error .typeError) :
    _onMessage c now msg = .error .typeError := by
  simp [_onMessage, hev, hsub, hid, hkey, bind, Except.bind, pure, Except.pure]

theorem onMessage_keyless (c : Client) (now : Nat) (msg ev first : Val)
    (hev : getField msg "event" = .ok ev) (hsub : strictEq ev (str "subscribed") = false)
    (hfirst : getIndex msg 0 = .ok first) (hkey : toPropertyKey first = .error .typeError) :
    _onMessage c now msg = .error .typeError := by
  simp [_onMessage, hev, hsub, hfirst, hkey, bind, Except.bind, pure, Except.pure]

theorem processFrames_isSome (frames : List (Nat × Val)) :
    ∀ (c : Client) (key : String), (c._channels.lookup key).isSome = true →
      ((processFrames c frames)._channels.lookup key).isSome = true := by
  induction frames with
  | nil => intro c key h; exact h
  | cons f rest ih =>
    intro c key h
    unfold processFrames
    cases hr : _onMessage c f.1 f.2 with
    | error e => exact ih c key h
    | ok r =>
      obtain ⟨c', evs⟩ := r
      apply ih
      rcases onMessage_table c f.1 f.2 c' evs hr with hc | ⟨_, k, _, _, _, hc⟩
      · rw [hc]; exact h
      · rw [hc]; exact lookup_tableSet_isSome _ _ _ _ h

theorem processFrames_other (frames : List (Nat × Val)) :
    ∀ (c : Client) (key : String),
      (∀ f ∈ frames, ¬ (getField f.2 "event" = .ok (str "subscribed") ∧
        ∃ id k, getField f.2 "chanId" = .ok id ∧ toPropertyKey id = .ok k ∧
          (k = key ∨ k = "__proto__"))) →
      tableGet (processFrames c frames) key = tableGet c key := by
  induction frames with
  | nil => intro c key _; rfl
  | cons f rest ih =>
    intro c key h
    have hrest := fun g hg => h g (List.mem_cons_of_mem _ hg)
    unfold processFrames
    cases hr : _onMessage c f.1 f.2 with
    | error e => exact ih c key hrest
    | ok r =>
      obtain ⟨c', evs⟩ := r
      rw [ih c' key hrest]
      rcases onMessage_table c f.1 f.2 c' evs hr with hc | ⟨id, k, he, hid, hk, hc⟩
      · rw [hc]
      · rw [hc]
        have hno := h f (List.mem_cons_self _ _)
        apply tableGet_tableSet_other
        · intro hp
          exact hno ⟨he, id, k, hid, hk, Or.inr hp⟩
        · intro hkk
          exact hno ⟨he, id, k, hid, hk, Or.inl hkk.symm⟩

theorem processFrames_own (frames : List (Nat × Val)) :
    ∀ (c : Client) (key : String),
      (∀ f ∈ frames, ¬ (getField f.2 "event" = .ok (str "subscribed") ∧
        ∃ id, getField f.2 "chanId" = .ok id ∧ toPropertyKey id = .ok key)) →
      (processFrames c frames)._channels.lookup key = c._channels.lookup key := by
  induction frames with
  | nil => intro c key _; rfl
  | cons f rest ih =>
    intro c key h
    have hrest := fun g hg => h g (List.mem_cons_of_mem _ hg)
    unfold processFrames
    cases hr : _onMessage c f.1 f.2 with
    | error e => exact ih c key hrest
    | ok r =>
      obtain ⟨c', evs⟩ := r
      rw [ih c' key hrest]
      rcases onMessage_table c f.1 f.2 c' evs hr with hc | ⟨id, k, he, hid, hk, hc⟩
      · rw [hc]
      · rw [hc]
        apply lookup_tableSet_other
        intro hkk
        subst hkk
        exact h f (List.mem_cons_self _ _) ⟨he, id, hid, hk⟩

theorem tableGet_congr_own (c c' : Client) (k : String)
    (h : c'._channels.lookup k = c._channels.lookup k)
    (hs : (c._channels.lookup k).isSome = true) : tableGet c' k = tableGet c k := by
  unfold tableGet
  rw [h]
  cases hl : c._channels.lookup k with
  | none => rw [hl] at hs; exact absurd hs (by simp)
  | some v => rfl

theorem unsub_inv (c : Client) (d : Except Err Val) (r : Client × List Val)
    (h : (d >>= fun chanId => Except.ok (_sendUnsubscribe c chanId)) = .ok r) : r.1 = c := by
  rw [bind_eq_ok] at h
  obtain ⟨chanId, _, h⟩ := h
  injection h with h
  rw [← h]
  unfold _sendUnsubscribe
  split <;> rfl

/-! ## The channel table: binding and lookup -/

/-- C1, counterexample: the acknowledgment whose `chanId` is the string
`__proto__` and which carries a property `7` is processed without an event, but
the id 7, which resolved to nothing before, then resolves to the object the
frame carries under that name: the assignment of line 132 has replaced the
prototype of the table. And the acknowledgment whose `chanId` is the object
`{"toString": 0}` binds nothing: the conversion of the id to a property key
throws a `TypeError`. -/
theorem onMessage_subscribed_proto :
    (∃ c', _onMessage sampleBound 0 sampleProtoAck7 = .ok (c', []) ∧
      tableGet sampleBound "7" = undefined ∧ tableGet c' "7" = sampleTickerAck) ∧
    _onMessage sampleBound 0 sampleKeylessAck = .error .typeError :=
  ⟨⟨_, onMessage_subscribed sampleBound 0 sampleProtoAck7 (str "subscribed") (str "__proto__")
      "__proto__" rfl rfl rfl (toPropertyKey_str _), rfl, rfl⟩,
    onMessage_subscribed_keyless sampleBound 0 sampleKeylessAck (str "subscribed")
      (obj [("toString", num (Number.ofNat 0))]) rfl rfl rfl (toPropertyKey_keyless _)⟩

/-- C1, amended: a frame whose `event` is `"subscribed"` and whose `chanId`
converts to a property key other than `__proto__` emits no event and stores the
frame itself under that key: reading the channel id afterwards returns the
frame exactly as submitted, whatever was bound to the id before, and every
other key reads as it did before. -/
theorem onMessage_subscribed_binds (c : Client) (now : Nat) (msg ev id : Val) (key : String)
    (hev : getField msg "event" = .ok ev) (hsub : strictEq ev (str "subscribed") = true)
    (hid : getField msg "chanId" = .ok id) (hkey : toPropertyKey id = .ok key)
    (hproto : key ≠ "__proto__") :
    _onMessage c now msg = .ok (tableSet c key msg, []) ∧
      tableGet (tableSet c key msg) key = msg ∧
      ∀ k, k ≠ key → tableGet (tableSet c key msg) k = tableGet c k :=
  ⟨onMessage_subscribed c now msg ev id key hev hsub hid hkey,
    tableGet_tableSet_self c key msg hproto,
    fun k hk => tableGet_tableSet_other c key k msg hproto hk⟩

/-- Witness of C1, amended: the client in which channel 5 is bound to the raw
book of `BTCUSD` processes an acknowledgment that binds channel 5 to the trades
of `ETHUSD`. -/
theorem onMessage_subscribed_binds_witness :
    tableGet sampleFull "5" = sampleAck ∧
      getField sampleRebind "event" = .ok (str "subscribed") ∧
      strictEq (str "subscribed") (str "subscribed") = true ∧
      getField sampleRebind "chanId" = .ok (num (Number.ofNat 5)) ∧
      toPropertyKey (num (Number.ofNat 5)) = .ok "5" ∧
      "5" ≠ "__proto__" ∧
      _onMessage sampleFull 0 sampleRebind = .ok (tableSet sampleFull "5" sampleRebind, []) ∧
      tableGet (tableSet sampleFull "5" sampleRebind) "5" = sampleRebind ∧
      ∀ k, k ≠ "5" → tableGet (tableSet sampleFull "5" sampleRebind) k = tableGet sampleFull k :=
  ⟨rfl, rfl, rfl, rfl, toPropertyKey_five, by decide,
    onMessage_subscribed_binds sampleFull 0 sampleRebind (str "subscribed") (num (Number.ofNat 5))
      "5" rfl rfl rfl toPropertyKey_five (by decide)⟩

/-- C2, counterexample: the frame `[{"toString": 0}, [100, 1, 2], 7]` is not a
`"subscribed"` control message and its first element is no bound channel id,
yet `_onMessage` throws a `TypeError`: the first element has no property key to
look up. -/
theorem onMessage_keyless_throws :
    getField sampleKeylessFrame "event" = .ok undefined ∧
    _onMessage sampleBound 0 sampleKeylessFrame = .error .typeError :=
  ⟨rfl, onMessage_keyless sampleBound 0 sampleKeylessFrame undefined
    (obj [("toString", num (Number.ofNat 0))]) rfl rfl rfl (toPropertyKey_keyless _)⟩

/-- C2, amended: a frame that is not a `"subscribed"` control message and whose
first element converts to a property key that the table does not resolve to a
binding (the key is no own property of the table and, where an acknowledgment
for `__proto__` has replaced the prototype of the table, is neither
`__proto__` nor a property of that acknowledgment) emits no event, throws
nothing and leaves the client, its table included, exactly as it was. -/
theorem onMessage_unbound_discards (c : Client) (now : Nat) (msg ev first : Val) (key : String)
    (hev : getField msg "event" = .ok ev) (hsub : strictEq ev (str "subscribed") = false)
    (hfirst : getIndex msg 0 = .ok first) (hkey : toPropertyKey first = .ok key)
    (hunbound : c._channels.lookup key = none)
    (hproto : ∀ kvs, c._channelsProto = some kvs → kvs.lookup key = none ∧ key ≠ "__proto__") :
    _onMessage c now msg = .ok (c, []) := by
  rcases tableGet_unbound c key hunbound hproto with hu | hn
  · simp [_onMessage, hev, hsub, hfirst, hkey, hu, truthy, bind, Except.bind, pure, Except.pure]
  · exact onMessage_unsubscribed c now msg ev first key [] hev hsub hfirst hkey hn
      (fun h => absurd h (by intro h; exact Val.noConfusion h))
      (fun h => absurd h (by intro h; exact Val.noConfusion h))
      (fun h => absurd h (by intro h; exact Val.noConfusion h))
      (fun h => absurd h (by intro h; exact Val.noConfusion h))

/-- Witness of C2, amended: a book update on channel 6 reaches a client that
has bound channel 5 only. -/
theorem onMessage_unbound_discards_witness :
    getField (arr [num (Number.ofNat 6), arr [num (Number.ofNat 100), num (Number.ofNat 1),
        num (Number.ofNat 2)], num (Number.ofNat 7)]) "event" = .ok undefined ∧
      strictEq undefined (str "subscribed") = false ∧
      getIndex (arr [num (Number.ofNat 6), arr [num (Number.ofNat 100), num (Number.ofNat 1),
        num (Number.ofNat 2)], num (Number.ofNat 7)]) 0 = .ok (num (Number.ofNat 6)) ∧
      toPropertyKey (num (Number.ofNat 6)) = .ok "6" ∧
      sampleBound._channels.lookup "6" = none ∧
      sampleBound._channelsProto = none ∧
      _onMessage sampleBound 0 (arr [num (Number.ofNat 6), arr [num (Number.ofNat 100),
        num (Number.ofNat 1), num (Number.ofNat 2)], num (Number.ofNat 7)]) = .ok (sampleBound, []) :=
  ⟨rfl, rfl, rfl, toPropertyKey_six, rfl, rfl,
    onMessage_unbound_discards sampleBound 0 _ undefined (num (Number.ofNat 6)) "6"
      rfl rfl rfl toPropertyKey_six rfl (fun _ h => Option.noConfusion h)⟩

/-- C10, counterexample: the acknowledgment `{"event": "subscribed", "channel":
"trades", "pair": "BTCUSD"}`, which carries no `chanId`, is stored in the table
(under the key `undefined`); the table then holds a binding with the pair
`BTCUSD` that matches `trades`, and `_findChannel("trades", "BTCUSD")` returns
`undefined`, which is what it returns when there is no such binding. -/
theorem findChannel_without_chanId :
    _onMessage sampleClient 0 sampleAckNoId = .ok (sampleNoId, []) ∧
    _findChannel sampleNoId (str "trades") (str "BTCUSD") = .ok undefined ∧
    ∃ kv ∈ sampleNoId._channels, Selects "trades" "BTCUSD" kv.2 :=
  ⟨onMessage_subscribed sampleClient 0 sampleAckNoId (str "subscribed") undefined "undefined"
      rfl rfl rfl toPropertyKey_undefined,
    rfl, ⟨("undefined", sampleAckNoId), List.mem_singleton.mpr rfl, rfl, Or.inl ⟨rfl, rfl⟩⟩⟩

/-! ## The dispatcher -/

/-- C11: the kind of event a frame can produce is fixed by the binding its first
element resolves to: every event emitted is a `ticker` under a ticker binding, a
`trade` under a trades binding, an `l3snapshot` or `l3update` under a book
binding with `prec` `"R0"`, and an `l2snapshot` or `l2update` under a book
binding whose `prec` is anything else or missing. -/
theorem onMessage_event_kind (c : Client) (now : Nat) (msg first : Val) (key : String)
    (c' : Client) (evs : List Event)
    (hfirst : getIndex msg 0 = .ok first) (hkey : toPropertyKey first = .ok key)
    (h : _onMessage c now msg = .ok (c', evs)) :
    (getField (tableGet c key) "channel" = .ok (str "ticker") →
      ∀ e ∈ evs, e.name = "ticker") ∧
    (getField (tableGet c key) "channel" = .ok (str "trades") →
      ∀ e ∈ evs, e.name = "trade") ∧
    (getField (tableGet c key) "channel" = .ok (str "book") →
      getField (tableGet c key) "prec" = .ok (str "R0") →
      ∀ e ∈ evs, e.name = "l3snapshot" ∨ e.name = "l3update") ∧
    (getField (tableGet c key) "channel" = .ok (str "book") →
      getField (tableGet c key) "prec" ≠ .ok (str "R0") →
      ∀ e ∈ evs, e.name = "l2snapshot" ∨ e.name = "l2update") := by
  have htt : ("ticker" : String) ≠ "trades" := by decide
  have htb : ("ticker" : String) ≠ "book" := by decide
  have hrb : ("trades" : String) ≠ "book" := by decide
  rcases onMessage_kinds c now msg first key c' evs hfirst hkey h with hnil | ⟨e, rfl, hk⟩
  · subst hnil
    exact ⟨fun _ e he => absurd he (List.not_mem_nil e), fun _ e he => absurd he (List.not_mem_nil e),
      fun _ _ e he => absurd he (List.not_mem_nil e), fun _ _ e he => absurd he (List.not_mem_nil e)⟩
  · rcases hk with ⟨hc, hn⟩ | ⟨hc, _, hn⟩ | ⟨hc, hp, hn⟩ | ⟨hc, hp, hn⟩
    · refine ⟨fun _ e' he' => ?_, fun hc' => ?_, fun hc' => ?_, fun hc' => ?_⟩
      · rw [List.mem_singleton.mp he']; exact hn
      · rw [hc] at hc'; exact absurd hc' (str_ne_of_ne _ _ htt)
      · rw [hc] at hc'; exact absurd hc' (str_ne_of_ne _ _ htb)
      · rw [hc] at hc'; exact absurd hc' (str_ne_of_ne _ _ htb)
    · refine ⟨fun hc' => ?_, fun _ e' he' => ?_, fun hc' => ?_, fun hc' => ?_⟩
      · rw [hc] at hc'; exact absurd hc' (str_ne_of_ne _ _ htt.symm)
      · rw [List.mem_singleton.mp he']; exact hn
      · rw [hc] at hc'; exact absurd hc' (str_ne_of_ne _ _ hrb)
      · rw [hc] at hc'; exact absurd hc' (str_ne_of_ne _ _ hrb)
    · refine ⟨fun hc' => ?_, fun hc' => ?_, fun _ _ e' he' => ?_, fun _ hp' => absurd hp hp'⟩
      · rw [hc] at hc'; exact absurd hc' (str_ne_of_ne _ _ htb.symm)
      · rw [hc] at hc'; exact absurd hc' (str_ne_of_ne _ _ hrb.symm)
      · rw [List.mem_singleton.mp he']; exact hn
    · refine ⟨fun hc' => ?_, fun hc' => ?_, fun _ hp' => absurd hp' hp, fun _ _ e' he' => ?_⟩
      · rw [hc] at hc'; exact absurd hc' (str_ne_of_ne _ _ htb.symm)
      · rw [hc] at hc'; exact absurd hc' (str_ne_of_ne _ _ hrb.symm)
      · rw [List.mem_singleton.mp he']; exact hn

/-- Witness of C11: the sample ticker row on the ticker channel 1 of the sample
table yields one event, and it is a `ticker`. -/
theorem onMessage_event_kind_witness :
    getIndex sampleTickerFrame 0 = .ok (num (Number.ofNat 1)) ∧
      toPropertyKey (num (Number.ofNat 1)) = .ok "1" ∧
      getField (tableGet sampleFull "1") "channel" = .ok (str "ticker") ∧
      ∃ evs, _onMessage sampleFull 0 sampleTickerFrame = .ok (sampleFull, evs) ∧
        evs.length = 1 ∧ ∀ e ∈ evs, e.name = "ticker" := by
  have hres : _onMessage sampleFull 0 sampleTickerFrame =
      (_onTicker 0 sampleTickerFrame sampleMarket).map (fun evs => (sampleFull, evs)) :=
    onMessage_ticker sampleFull 0 sampleTickerFrame undefined (num (Number.ofNat 1)) _ "1" _
      sampleMarket rfl rfl rfl toPropertyKey_one sampleFull_one rfl rfl rfl rfl
  rw [sampleTickerFrame, ticker_row] at hres
  exact ⟨rfl, toPropertyKey_one, rfl, _, hres, rfl,
    (onMessage_event_kind sampleFull 0 sampleTickerFrame (num (Number.ofNat 1)) "1" sampleFull _
      rfl toPropertyKey_one hres).1 rfl⟩

/-- C13: on a channel bound with `channel` `"trades"`, a data frame whose second
element is not `"tu"` (an initial trade-history array, a `"te"` frame, anything
else) emits nothing, throws nothing and leaves the client as it was; and every
event a frame on that channel does emit is a `trade` of a frame whose second
element is `"tu"`. -/
theorem onMessage_trades_only_tu (c : Client) (now : Nat) (msg ev first tag : Val)
    (key : String) (kvs : List (String × Val))
    (hev : getField msg "event" = .ok ev) (hsub : strictEq ev (str "subscribed") = false)
    (hfirst : getIndex msg 0 = .ok first) (hkey : toPropertyKey first = .ok key)
    (hbound : tableGet c key = obj kvs)
    (hchan : ownProp kvs "channel" = str "trades")
    (htag : getIndex msg 1 = .ok tag) :
    (tag ≠ str "tu" → _onMessage c now msg = .ok (c, [])) ∧
    (∀ c' evs, _onMessage c now msg = .ok (c', evs) →
      ∀ e ∈ evs, e.name = "trade" ∧ tag = str "tu") := by
  have htt : ("trades" : String) ≠ "ticker" := by decide
  have hrb : ("trades" : String) ≠ "book" := by decide
  have hc : getField (tableGet c key) "channel" = .ok (str "trades") := by
    rw [hbound, getField_obj, hchan]
  refine ⟨fun hne => onMessage_trades_other c now msg ev first tag key kvs hev hsub hfirst hkey
    hbound hchan htag (strictEq_str_false _ _ hne), fun c' evs h e he => ?_⟩
  rcases onMessage_kinds c now msg first key c' evs hfirst hkey h with hnil | ⟨e', rfl, hk⟩
  · subst hnil
    exact absurd he (List.not_mem_nil e)
  · rw [List.mem_singleton.mp he]
    rcases hk with ⟨hc', _⟩ | ⟨_, htu, hn⟩ | ⟨hc', _, _⟩ | ⟨hc', _, _⟩
    · rw [hc] at hc'; exact absurd hc' (str_ne_of_ne _ _ htt)
    · rw [htag] at htu
      injection htu with htu
      exact ⟨hn, htu⟩
    · rw [hc] at hc'; exact absurd hc' (str_ne_of_ne _ _ hrb)
    · rw [hc] at hc'; exact absurd hc' (str_ne_of_ne _ _ hrb)

/-- Witness of C13: the sample `"te"` frame on the trades channel 2 of the
sample table is dropped. -/
theorem onMessage_trades_only_tu_witness :
    getField sampleTradeExecuted "event" = .ok undefined ∧
      strictEq undefined (str "subscribed") = false ∧
      getIndex sampleTradeExecuted 0 = .ok (num (Number.ofNat 2)) ∧
      toPropertyKey (num (Number.ofNat 2)) = .ok "2" ∧
      tableGet sampleFull "2" = sampleTradesAck ∧
      getIndex sampleTradeExecuted 1 = .ok (str "te") ∧
      str "te" ≠ str "tu" ∧
      _onMessage sampleFull 0 sampleTradeExecuted = .ok (sampleFull, []) :=
  ⟨rfl, rfl, rfl, toPropertyKey_two, sampleFull_two, rfl, str_ne "te" "tu" (by decide),
    (onMessage_trades_only_tu sampleFull 0 sampleTradeExecuted undefined (num (Number.ofNat 2))
      (str "te") "2" _ rfl rfl rfl toPropertyKey_two sampleFull_two rfl rfl).1
      (str_ne "te" "tu" (by decide))⟩

/-- C14: a data frame whose second element is `"hb"` emits no event, throws
nothing and leaves the client, its table included, as it was, whatever its first
element is bound to. -/
theorem onMessage_heartbeat_ignored (c : Client) (now : Nat) (msg ev first : Val) (key : String)
    (hev : getField msg "event" = .ok ev) (hsub : strictEq ev (str "subscribed") = false)
    (hfirst : getIndex msg 0 = .ok first) (hkey : toPropertyKey first = .ok key)
    (htag : getIndex msg 1 = .ok (str "hb")) :
    _onMessage c now msg = .ok (c, []) :=
  onMessage_heartbeat c now msg ev first key hev hsub hfirst hkey htag

/-- Witness of C14: the sample heartbeat on the book channel 3 of the sample
table. -/
theorem onMessage_heartbeat_ignored_witness :
    getField sampleHeartbeat "event" = .ok undefined ∧
      strictEq undefined (str "subscribed") = false ∧
      getIndex sampleHeartbeat 0 = .ok (num (Number.ofNat 3)) ∧
      toPropertyKey (num (Number.ofNat 3)) = .ok "3" ∧
      getIndex sampleHeartbeat 1 = .ok (str "hb") ∧
      tableGet sampleFull "3" = sampleBookAck ∧
      _onMessage sampleFull 0 sampleHeartbeat = .ok (sampleFull, []) :=
  ⟨rfl, rfl, rfl, toPropertyKey_three, rfl, sampleFull_three,
    onMessage_heartbeat_ignored sampleFull 0 sampleHeartbeat undefined (num (Number.ofNat 3)) "3"
      rfl rfl rfl toPropertyKey_three rfl⟩

/-- C15: a data frame on a bound channel whose pair has no subscriber in the
map of the stream the binding stands for (`_tickerSubs` for a ticker binding,
`_tradeSubs` for a trades binding, `_level3UpdateSubs` for a book binding with
`prec` `"R0"`, `_level2UpdateSubs` for any other book binding) emits no event
and throws nothing, whatever the payload is. -/
theorem onMessage_without_subscriber (c : Client) (now : Nat) (msg ev first : Val)
    (key : String) (kvs : List (String × Val))
    (hev : getField msg "event" = .ok ev) (hsub : strictEq ev (str "subscribed") = false)
    (hfirst : getIndex msg 0 = .ok first) (hkey : toPropertyKey first = .ok key)
    (hbound : tableGet c key = obj kvs)
    (hticker : ownProp kvs "channel" = str "ticker" → c._tickerSubs (ownProp kvs "pair") = none)
    (htrades : ownProp kvs "channel" = str "trades" → c._tradeSubs (ownProp kvs "pair") = none)
    (hl3 : ownProp kvs "channel" = str "book" → ownProp kvs "prec" = str "R0" →
      c._level3UpdateSubs (ownProp kvs "pair") = none)
    (hl2 : ownProp kvs "channel" = str "book" → ownProp kvs "prec" ≠ str "R0" →
      c._level2UpdateSubs (ownProp kvs "pair") = none) :
    _onMessage c now msg = .ok (c, []) :=
  onMessage_unsubscribed c now msg ev first key kvs hev hsub hfirst hkey hbound hticker htrades
    hl3 hl2

/-- Witness of C15: a book frame with the payload `null` on channel 3 of the
sample table, when nobody subscribes any more. -/
theorem onMessage_without_subscriber_witness :
    getField (arr [num (Number.ofNat 3), null, num (Number.ofNat 7)]) "event" = .ok undefined ∧
      strictEq undefined (str "subscribed") = false ∧
      getIndex (arr [num (Number.ofNat 3), null, num (Number.ofNat 7)]) 0 =
        .ok (num (Number.ofNat 3)) ∧
      toPropertyKey (num (Number.ofNat 3)) = .ok "3" ∧
      tableGet sampleSilent "3" = sampleBookAck ∧
      sampleSilent._level2UpdateSubs (str "BTCUSD") = none ∧
      _onMessage sampleSilent 0 (arr [num (Number.ofNat 3), null, num (Number.ofNat 7)]) =
        .ok (sampleSilent, []) :=
  ⟨rfl, rfl, rfl, toPropertyKey_three, rfl, rfl,
    onMessage_without_subscriber sampleSilent 0 _ undefined (num (Number.ofNat 3)) "3" _
      rfl rfl rfl toPropertyKey_three (rfl : tableGet sampleSilent "3" = sampleBookAck)
      (fun _ => rfl) (fun _ => rfl) (fun _ _ => rfl) (fun _ _ => rfl)⟩

/-- C19: one frame makes `_onMessage` emit zero or one event, never two or
more: either the call returns and has emitted at most one event, or it throws,
and a call that throws has emitted nothing (every decoder emits in its last
statement). -/
theorem onMessage_at_most_one_event (c : Client) (now : Nat) (msg : Val) :
    (∃ c' evs, _onMessage c now msg = .ok (c', evs) ∧ evs.length ≤ 1) ∨
      _onMessage c now msg = .error .typeError := by
  rcases err_cases _ (_onMessage c now msg) with ⟨⟨c', evs⟩, h⟩ | h
  · exact Or.inl ⟨c', evs, h, onMessage_length c now msg c' evs h⟩
  · exact Or.inr h

/-- C12 at the snapshot of zero rows: on the aggregated book (channel 3) and on
the raw book (channel 5) of the sample table, both with a subscriber, the frame
`[chanId, [], 7]` is not turned into a snapshot event without points:
`Array.isArray(msg[1][0])` is false on the empty payload, the frame goes to the
update decoder, and `price.toFixed` throws on the missing price. A snapshot of
one row and a flat row are classified as the claim says. -/
theorem onMessage_empty_snapshot :
    _onMessage sampleFull 0 (arr [num (Number.ofNat 3), arr [], num (Number.ofNat 7)]) =
      .error .typeError ∧
    _onMessage sampleFull 0 (arr [num (Number.ofNat 5), arr [], num (Number.ofNat 7)]) =
      .error .typeError ∧
    (∃ s, _onMessage sampleFull 0 (arr [num (Number.ofNat 3),
        arr [arr [num (Number.ofNat 100), num (Number.ofNat 1), num (Number.ofNat 2)]],
        num (Number.ofNat 7)]) = .ok (sampleFull, [Event.l2snapshot s sampleMarket]) ∧
      s.bids.length + s.asks.length = 1) ∧
    (∃ u, _onMessage sampleFull 0 (arr [num (Number.ofNat 3),
        arr [num (Number.ofNat 100), num (Number.ofNat 1), num (Number.ofNat 2)],
        num (Number.ofNat 7)]) = .ok (sampleFull, [Event.l2update u sampleMarket]) ∧
      u.bids.length + u.asks.length = 1) := by
  have hprec : ownProp [("event", str "subscribed"), ("channel", str "book"),
      ("chanId", num (Number.ofNat 3)), ("pair", str "BTCUSD"), ("len", str "250")] "prec" ≠
      str "R0" := by
    intro h
    have hu : ownProp [("event", str "subscribed"), ("channel", str "book"),
      ("chanId", num (Number.ofNat 3)), ("pair", str "BTCUSD"), ("len", str "250")] "prec" =
      undefined := rfl
    rw [hu] at h
    exact Val.noConfusion h
  refine ⟨?_, ?_, ?_, ?_⟩
  · rw [onMessage_level2 sampleFull 0
      (arr [num (Number.ofNat 3), arr [], num (Number.ofNat 7)])
      undefined (num (Number.ofNat 3)) (arr []) "3" _
      sampleMarket rfl rfl rfl toPropertyKey_three sampleFull_three rfl hprec rfl rfl rfl]
    simp [getIndex, isArray, (level2Update_no_price _ _ [] _).1, Except.bind, Except.map]
  · rw [onMessage_level3 sampleFull 0
      (arr [num (Number.ofNat 5), arr [], num (Number.ofNat 7)])
      undefined (num (Number.ofNat 5)) (arr []) "5" _
      sampleMarket rfl rfl rfl toPropertyKey_five sampleFull_five rfl rfl rfl rfl rfl]
    simp [getIndex, isArray, level3Update_no_price, Except.bind, Except.map]
  · have h := level2Snapshot_rows (num (Number.ofNat 3))
      [(Number.ofNat 100, Number.ofNat 1, Number.ofNat 2)] (Number.ofNat 7) sampleMarket
    simp only [List.map] at h
    have hm : _onMessage sampleFull 0 (arr [num (Number.ofNat 3),
        arr [arr [num (Number.ofNat 100), num (Number.ofNat 1), num (Number.ofNat 2)]],
        num (Number.ofNat 7)]) =
        (_onLevel2Snapshot (arr [num (Number.ofNat 3),
          arr [arr [num (Number.ofNat 100), num (Number.ofNat 1), num (Number.ofNat 2)]],
          num (Number.ofNat 7)]) sampleMarket).map (fun evs => (sampleFull, evs)) := by
      rw [onMessage_level2 sampleFull 0
        (arr [num (Number.ofNat 3),
          arr [arr [num (Number.ofNat 100), num (Number.ofNat 1), num (Number.ofNat 2)]],
          num (Number.ofNat 7)])
        undefined (num (Number.ofNat 3))
        (arr [arr [num (Number.ofNat 100), num (Number.ofNat 1), num (Number.ofNat 2)]]) "3" _
        sampleMarket rfl rfl rfl toPropertyKey_three sampleFull_three rfl hprec rfl rfl rfl]
      rfl
    rw [h] at hm
    refine ⟨_, hm, ?_⟩
    cases hp : (Number.ofNat 2).isPos <;> simp [List.filter, hp]
  · have h := level2Update_row (num (Number.ofNat 3)) (Number.ofNat 100) (Number.ofNat 1)
      (Number.ofNat 2) (Number.ofNat 7) sampleMarket
    have hm : _onMessage sampleFull 0 (arr [num (Number.ofNat 3),
        arr [num (Number.ofNat 100), num (Number.ofNat 1), num (Number.ofNat 2)],
        num (Number.ofNat 7)]) =
        (_onLevel2Update (arr [num (Number.ofNat 3),
          arr [num (Number.ofNat 100), num (Number.ofNat 1), num (Number.ofNat 2)],
          num (Number.ofNat 7)]) sampleMarket).map (fun evs => (sampleFull, evs)) := by
      rw [onMessage_level2 sampleFull 0
        (arr [num (Number.ofNat 3),
          arr [num (Number.ofNat 100), num (Number.ofNat 1), num (Number.ofNat 2)],
          num (Number.ofNat 7)])
        undefined (num (Number.ofNat 3))
        (arr [num (Number.ofNat 100), num (Number.ofNat 1), num (Number.ofNat 2)]) "3" _
        sampleMarket rfl rfl rfl toPropertyKey_three sampleFull_three rfl hprec rfl rfl rfl]
      rfl
    rw [h] at hm
    refine ⟨_, hm, ?_⟩
    cases hp : (Number.ofNat 2).isPos <;> simp [hp]

/-- C16, counterexample: `_onMessage` throws a `TypeError` on the frame `null`,
on the book frame `[3, null, 7]` of a bound and subscribed channel, and on the
ticker frame `[1, []]` whose row is too short. And the acknowledgment whose
`chanId` is the string `__proto__` changes what another name resolves to: the
name `event`, which resolved to nothing, then resolves to the string
`"subscribed"` of the frame. -/
theorem onMessage_throws :
    _onMessage sampleFull 0 null = .error .typeError ∧
    _onMessage sampleFull 0 (arr [num (Number.ofNat 3), null, num (Number.ofNat 7)]) =
      .error .typeError ∧
    _onMessage sampleFull 0 (arr [num (Number.ofNat 1), arr []]) = .error .typeError ∧
    (∃ c', _onMessage sampleFull 0 sampleProtoAck = .ok (c', []) ∧
      tableGet sampleFull "event" = undefined ∧ tableGet c' "event" = str "subscribed") := by
  have hprec : ownProp [("event", str "subscribed"), ("channel", str "book"),
      ("chanId", num (Number.ofNat 3)), ("pair", str "BTCUSD"), ("len", str "250")] "prec" ≠
      str "R0" := by
    intro h
    have hu : ownProp [("event", str "subscribed"), ("channel", str "book"),
      ("chanId", num (Number.ofNat 3)), ("pair", str "BTCUSD"), ("len", str "250")] "prec" =
      undefined := rfl
    rw [hu] at h
    exact Val.noConfusion h
  refine ⟨rfl, ?_, ?_, ?_⟩
  · rw [onMessage_level2 sampleFull 0
      (arr [num (Number.ofNat 3), null, num (Number.ofNat 7)])
      undefined (num (Number.ofNat 3)) null "3" _
      sampleMarket rfl rfl rfl toPropertyKey_three sampleFull_three rfl hprec rfl rfl rfl]
    rfl
  · rw [onMessage_ticker sampleFull 0 (arr [num (Number.ofNat 1), arr []])
      undefined (num (Number.ofNat 1)) (arr []) "1" _
      sampleMarket rfl rfl rfl toPropertyKey_one sampleFull_one rfl rfl rfl rfl,
      onTicker_short_row]
    rfl
  · exact ⟨_, onMessage_subscribed sampleFull 0 sampleProtoAck (str "subscribed")
      (str "__proto__") "__proto__" rfl rfl rfl (toPropertyKey_str _), rfl, rfl⟩

/-- C16, amended: whenever `_onMessage` completes, a frame that is not a
`"subscribed"` control message has left the client, its table included, exactly
as it was, and after a `"subscribed"` frame every key other than the one its
`chanId` names reads as it did before, unless that `chanId` names `__proto__`.
Completion is not claimed: the call throws on malformed frames. -/
theorem onMessage_other_bindings (c : Client) (now : Nat) (msg : Val) (c' : Client)
    (evs : List Event) (h : _onMessage c now msg = .ok (c', evs)) :
    (getField msg "event" ≠ .ok (str "subscribed") → c' = c) ∧
    ∀ k, tableGet c' k = tableGet c k ∨
      (getField msg "event" = .ok (str "subscribed") ∧
        ∃ id key, getField msg "chanId" = .ok id ∧ toPropertyKey id = .ok key ∧
          (key = k ∨ key = "__proto__")) := by
  rcases onMessage_table c now msg c' evs h with hc | ⟨id, key, he, hid, hkey, hc⟩
  · exact ⟨fun _ => hc, fun k => Or.inl (by rw [hc])⟩
  · refine ⟨fun hne => absurd he hne, fun k => ?_⟩
    by_cases hp : key = "__proto__"
    · exact Or.inr ⟨he, id, key, hid, hkey, Or.inr hp⟩
    · by_cases hk : k = key
      · exact Or.inr ⟨he, id, key, hid, hkey, Or.inl hk.symm⟩
      · rw [hc]
        exact Or.inl (tableGet_tableSet_other c key k msg hp hk)

/-- Witness of C16, amended: the client with four channels bound processes the
acknowledgment that binds channel 5 again; channel 3 reads as before. -/
theorem onMessage_other_bindings_witness :
    _onMessage sampleFull 0 sampleRebind = .ok (tableSet sampleFull "5" sampleRebind, []) ∧
      tableGet (tableSet sampleFull "5" sampleRebind) "3" = sampleBookAck ∧
      ((getField sampleRebind "event" ≠ .ok (str "subscribed") →
          tableSet sampleFull "5" sampleRebind = sampleFull) ∧
        ∀ k, tableGet (tableSet sampleFull "5" sampleRebind) k = tableGet sampleFull k ∨
          (getField sampleRebind "event" = .ok (str "subscribed") ∧
            ∃ id key, getField sampleRebind "chanId" = .ok id ∧ toPropertyKey id = .ok key ∧
              (key = k ∨ key = "__proto__"))) :=
  ⟨onMessage_subscribed sampleFull 0 sampleRebind (str "subscribed") (num (Number.ofNat 5)) "5"
      rfl rfl rfl toPropertyKey_five, rfl,
    onMessage_other_bindings sampleFull 0 sampleRebind (tableSet sampleFull "5" sampleRebind) []
      (onMessage_subscribed sampleFull 0 sampleRebind (str "subscribed") (num (Number.ofNat 5)) "5"
        rfl rfl rfl toPropertyKey_five)⟩

/-! ## Sequence ids -/

/-- C17, counterexample: the book update `[3, [100, 1, 2], 1.5]` is decoded into
a `Level2Update` whose `sequenceId` is 1.5, which is not an integer. -/
theorem level2Update_sequenceId_fraction :
    (∃ u : Level2Update,
      _onLevel2Update (arr [num (Number.ofNat 3),
        arr [num (Number.ofNat 100), num (Number.ofNat 1), num (Number.ofNat 2)],
        num (Number.ofDecimal false 15 (-1))]) sampleMarket = .ok [Event.l2update u sampleMarket] ∧
      u.sequenceId = Number.ofDecimal false 15 (-1)) ∧
    (Number.ofDecimal false 15 (-1)).isInteger = false :=
  ⟨⟨_, level2Update_row (num (Number.ofNat 3)) (Number.ofNat 100) (Number.ofNat 1)
      (Number.ofNat 2) (Number.ofDecimal false 15 (-1)) sampleMarket, rfl⟩, by decide⟩

/-- C17, amended: whenever one of the four book decoders emits an event for a
frame, the `sequenceId` of the event is the Number that unary plus makes of the
third element of the frame, which is that element itself when it is a Number;
it is not rounded to an integer, and the payload rows have no part in it. -/
theorem book_sequenceId_forwarded (msg : Val) (market : Market) (evs : List Event)
    (h : _onLevel2Snapshot msg market = .ok evs ∨ _onLevel2Update msg market = .ok evs ∨
      _onLevel3Snapshot msg market = .ok evs ∨ _onLevel3Update msg market = .ok evs) :
    ∃ seq sq, getIndex msg 2 = .ok seq ∧ unaryPlus seq = .ok sq ∧
      (∀ n, seq = num n → sq = n) ∧ ∀ e ∈ evs, e.sequenceId = some sq := by
  have hnum : ∀ (seq : Val) (sq : Number), unaryPlus seq = .ok sq → ∀ n, seq = num n → sq = n := by
    intro seq sq hsq n hn
    subst hn
    injection hsq with hsq
    exact hsq.symm
  rcases h with h | h | h | h
  · obtain ⟨s, v, hv, hsq, rfl⟩ := onLevel2Snapshot_ok _ _ _ h
    exact ⟨v, _, hv, hsq, hnum v _ hsq, fun e he => by rw [List.mem_singleton.mp he]; rfl⟩
  · have hv : ∃ v sq, getIndex msg 2 = .ok v ∧ unaryPlus v = .ok sq := by
      simp only [_onLevel2Update, bind_eq_ok] at h
      obtain ⟨_, _, _, _, v, hv, sq, hsq, _⟩ := h
      exact ⟨v, sq, hv, hsq⟩
    rcases onLevel2Update_ok _ _ _ h with hnil | ⟨u, v, hv', hsq, _, rfl⟩
    · obtain ⟨v, sq, hv, hsq⟩ := hv
      subst hnil
      exact ⟨v, sq, hv, hsq, hnum v sq hsq, fun e he => absurd he (List.not_mem_nil e)⟩
    · exact ⟨v, _, hv', hsq, hnum v _ hsq, fun e he => by rw [List.mem_singleton.mp he]; rfl⟩
  · obtain ⟨s, v, hv, hsq, rfl⟩ := onLevel3Snapshot_ok _ _ _ h
    exact ⟨v, _, hv, hsq, hnum v _ hsq, fun e he => by rw [List.mem_singleton.mp he]; rfl⟩
  · obtain ⟨u, v, hv, hsq, _, rfl⟩ := onLevel3Update_ok _ _ _ h
    exact ⟨v, _, hv, hsq, hnum v _ hsq, fun e he => by rw [List.mem_singleton.mp he]; rfl⟩

/-- Witness of C17, amended: the raw-book update `[5, [55, 100, 2], 7]` is
decoded, and the event carries the sequence id 7 of the frame. -/
theorem book_sequenceId_forwarded_witness :
    ∃ evs, _onLevel3Update (arr [num (Number.ofNat 5),
        arr [num (Number.ofNat 55), num (Number.ofNat 100), num (Number.ofNat 2)],
        num (Number.ofNat 7)]) sampleMarket = .ok evs ∧ evs.length = 1 ∧
      ∃ seq sq, getIndex (arr [num (Number.ofNat 5),
          arr [num (Number.ofNat 55), num (Number.ofNat 100), num (Number.ofNat 2)],
          num (Number.ofNat 7)]) 2 = .ok seq ∧ unaryPlus seq = .ok sq ∧
        (∀ n, seq = num n → sq = n) ∧ ∀ e ∈ evs, e.sequenceId = some sq :=
  ⟨_, level3Update_row (num (Number.ofNat 5)) (Number.ofNat 55) (Number.ofNat 100)
      (Number.ofNat 2) (Number.ofNat 7) sampleMarket, rfl,
    book_sequenceId_forwarded _ sampleMarket _
      (Or.inr (Or.inr (Or.inr (level3Update_row (num (Number.ofNat 5)) (Number.ofNat 55)
        (Number.ofNat 100) (Number.ofNat 2) (Number.ofNat 7) sampleMarket))))⟩

/-! ## The guard of the aggregated-book update -/

/-- C18 at a row without numeric price: `_onLevel2Update` throws a `TypeError`
when the price is `null` (`[3, [null, 1, 2], 7]`) and when it is missing
(`[3, [], 7]`), because the guard reads `price.toFixed`; it returns without an
event when the price is a string or a nested array. -/
theorem level2Update_guard :
    _onLevel2Update (arr [num (Number.ofNat 3),
        arr [null, num (Number.ofNat 1), num (Number.ofNat 2)], num (Number.ofNat 7)])
        sampleMarket = .error .typeError ∧
    _onLevel2Update (arr [num (Number.ofNat 3), arr [], num (Number.ofNat 7)]) sampleMarket =
      .error .typeError ∧
    _onLevel2Update (arr [num (Number.ofNat 3),
        arr [str "100", num (Number.ofNat 1), num (Number.ofNat 2)], num (Number.ofNat 7)])
        sampleMarket = .ok [] ∧
    _onLevel2Update (arr [num (Number.ofNat 3),
        arr [arr [num (Number.ofNat 100)], num (Number.ofNat 1), num (Number.ofNat 2)],
        num (Number.ofNat 7)]) sampleMarket = .ok [] :=
  ⟨(level2Update_no_price _ _ _ _).2, (level2Update_no_price _ _ [] _).1,
    (level2Update_price_not_number _ "100" [] _ _ _).1,
    (level2Update_price_not_number _ "" [num (Number.ofNat 100)] _ _ _).2⟩

/-! ## The table over time -/

/-- C20, counterexample: two acknowledgments whose `chanId` is the string
`__proto__`, the first carrying a property `7`. After the first the id 7
resolves to the object the frame carries under that name, after the second it
resolves to nothing: an id that resolved has stopped to, and what it resolved
to has changed, while no frame of the sequence carries the `chanId` 7. -/
theorem processFrames_proto_unbinds :
    tableGet sampleClient "7" = undefined ∧
    tableGet (processFrames sampleClient [(0, sampleProtoAck7)]) "7" = sampleTickerAck ∧
    tableGet (processFrames sampleClient [(0, sampleProtoAck7), (1, sampleProtoAck)]) "7" =
      undefined ∧
    getField sampleProtoAck7 "chanId" = .ok (str "__proto__") ∧
    getField sampleProtoAck "chanId" = .ok (str "__proto__") := by
  have h1 : _onMessage sampleClient 0 sampleProtoAck7 =
      .ok (tableSet sampleClient "__proto__" sampleProtoAck7, []) :=
    onMessage_subscribed sampleClient 0 sampleProtoAck7 (str "subscribed") (str "__proto__")
      "__proto__" rfl rfl rfl (toPropertyKey_str _)
  have h2 : _onMessage (tableSet sampleClient "__proto__" sampleProtoAck7) 1 sampleProtoAck =
      .ok (tableSet (tableSet sampleClient "__proto__" sampleProtoAck7) "__proto__"
        sampleProtoAck, []) :=
    onMessage_subscribed _ 1 sampleProtoAck (str "subscribed") (str "__proto__")
      "__proto__" rfl rfl rfl (toPropertyKey_str _)
  refine ⟨rfl, ?_, ?_, rfl, rfl⟩
  · simp only [processFrames, h1]
    rfl
  · simp only [processFrames, h1, h2]
    rfl

/-- C20, amended: a frame that is not a `"subscribed"` control message leaves
the client exactly as it was. Over every finite sequence of frames an own
property of the table stays one, and it holds the same value at the end unless
a frame of the sequence is a `"subscribed"` message that carries its key as
`chanId`; what any key resolves to is the same at the end unless a frame of the
sequence is a `"subscribed"` message whose `chanId` names that key or
`__proto__`. `_sendUnsubscribe` and the eight requests for a stream leave the
client, and so every binding, as they were. -/
theorem table_never_shrinks (c : Client) :
    (∀ now msg c' evs, _onMessage c now msg = .ok (c', evs) →
      getField msg "event" ≠ .ok (str "subscribed") → c' = c) ∧
    (∀ frames key, (c._channels.lookup key).isSome = true →
      ((processFrames c frames)._channels.lookup key).isSome = true) ∧
    (∀ frames key,
      (∀ f ∈ frames, ¬ (getField f.2 "event" = .ok (str "subscribed") ∧
        ∃ id, getField f.2 "chanId" = .ok id ∧ toPropertyKey id = .ok key)) →
      (processFrames c frames)._channels.lookup key = c._channels.lookup key ∧
      ((c._channels.lookup key).isSome = true →
        tableGet (processFrames c frames) key = tableGet c key)) ∧
    (∀ frames key,
      (∀ f ∈ frames, ¬ (getField f.2 "event" = .ok (str "subscribed") ∧
        ∃ id k, getField f.2 "chanId" = .ok id ∧ toPropertyKey id = .ok k ∧
          (k = key ∨ k = "__proto__"))) →
      tableGet (processFrames c frames) key = tableGet c key) ∧
    (∀ v, (_sendUnsubscribe c v).1 = c ∧ (_sendSubTicker c v).1 = c ∧
      (_sendUnsubTicker c v).1 = c ∧ (_sendSubTrades c v).1 = c ∧
      (_sendSubLevel2Updates c v).1 = c ∧ (_sendSubLevel3Updates c v).1 = c ∧
      (∀ r, _sendUnsubTrades c v = .ok r → r.1 = c) ∧
      (∀ r, _sendUnsubLevel2Updates c v = .ok r → r.1 = c) ∧
      (∀ r, _sendUnsubLevel3Updates c v = .ok r → r.1 = c)) := by
  refine ⟨fun now msg c' evs h hne => ?_, fun frames key h => processFrames_isSome frames c key h,
    fun frames key h => ⟨processFrames_own frames c key h,
      fun hs => tableGet_congr_own c _ key (processFrames_own frames c key h) hs⟩,
    fun frames key h => processFrames_other frames c key h, fun v => ?_⟩
  · rcases onMessage_table c now msg c' evs h with hc | ⟨_, _, he, _⟩
    · exact hc
    · exact absurd he hne
  · refine ⟨?_, rfl, rfl, rfl, rfl, rfl, fun r h => unsub_inv c _ r h,
      fun r h => unsub_inv c _ r h, fun r h => unsub_inv c _ r h⟩
    unfold _sendUnsubscribe
    split <;> rfl

/-- Witness of C20, amended: the sample client with channel 5 bound receives a
heartbeat and then the acknowledgment of channel 3; channel 5 is still bound,
and to the same binding. -/
theorem table_never_shrinks_witness :
    (sampleBound._channels.lookup "5").isSome = true ∧
      (∀ f ∈ [(0, sampleHeartbeat), (1, sampleBookAck)],
        ¬ (getField f.2 "event" = .ok (str "subscribed") ∧
          ∃ id k, getField f.2 "chanId" = .ok id ∧ toPropertyKey id = .ok k ∧
            (k = "5" ∨ k = "__proto__"))) ∧
      ((processFrames sampleBound [(0, sampleHeartbeat), (1, sampleBookAck)])._channels.lookup
        "5").isSome = true ∧
      tableGet (processFrames sampleBound [(0, sampleHeartbeat), (1, sampleBookAck)]) "5" =
        tableGet sampleBound "5" := by
  have hno : ∀ f ∈ [((0 : Nat), sampleHeartbeat), (1, sampleBookAck)],
      ¬ (getField f.2 "event" = .ok (str "subscribed") ∧
        ∃ id k, getField f.2 "chanId" = .ok id ∧ toPropertyKey id = .ok k ∧
          (k = "5" ∨ k = "__proto__")) := by
    intro f hf
    simp only [List.mem_cons, List.mem_singleton, List.not_mem_nil, or_false] at hf
    rcases hf with rfl | rfl
    · rintro ⟨he, _⟩
      have hu : getField sampleHeartbeat "event" = .ok undefined := rfl
      rw [hu] at he
      injection he with he
      exact Val.noConfusion he
    · rintro ⟨_, id, k, hid, hk, hkk⟩
      have hi : getField sampleBookAck "chanId" = .ok (num (Number.ofNat 3)) := rfl
      rw [hi] at hid
      injection hid with hid
      subst hid
      rw [toPropertyKey_three] at hk
      injection hk with hk
      subst hk
      rcases hkk with hkk | hkk
      · exact absurd hkk (by decide)
      · exact absurd hkk (by decide)
  exact ⟨rfl, hno, (table_never_shrinks sampleBound).2.1 _ "5" rfl,
    (table_never_shrinks sampleBound).2.2.2.1 _ "5" hno⟩

end Bitfinex
